import Mathlib

/-!
# Sparkle-Validator: a shallow embedding in Lean 4

This file embeds the core of the Sparkle appcast validator (a TypeScript
project) and proves properties of it.  Each definition mirrors a function of
the source tree:

* `src/core/types.ts`      — the data model (`Severity`, `Diagnostic`, XML tree)
* `src/core/validator.ts`  — `consolidateDiagnostics` and `validate`
* `src/core/rules/*.ts`    — the rule modules
* `src/core/remote.ts`     — the remote URL verifier
* `functions/api/fetch.ts` — the web fetch proxy's SSRF classifier

External collaborators (the saxes XML parser, the JavaScript `Date` parser,
the WHATWG `URL` parser, and the network `fetch`) are modelled as explicit
oracle parameters, since they are outside the validator's own code; every
in-repo computation is embedded directly.  JavaScript semantics that the code
relies on (string falsiness of `""`, `parseInt` prefix parsing, `NaN || 0`,
insertion-ordered `Map`/`Set` iteration, stable `Array.sort`) are modelled by
dedicated helpers defined below.
-/

namespace Sparkle

/-! ## JavaScript primitive helpers -/

/-- JavaScript string truthiness of a possibly-absent string: `undefined` and
`""` are falsy, every other string is truthy. -/
def jsTruthy : Option String → Bool
  | none => false
  | some s => !(s.isEmpty)

/-- JavaScript `a || b` on possibly-absent strings (`""` and `undefined` are
falsy). -/
def jsOr (a b : Option String) : Option String :=
  if jsTruthy a then a else b

/-- JavaScript `x || ""` on a possibly-absent string. -/
def jsOrEmpty (a : Option String) : String :=
  match a with
  | some s => s
  | none => ""

/-- Is a character an ASCII decimal digit? -/
def isDigitChar (c : Char) : Bool := c.isDigit

/-! String operations restated over the character list, so that they both
mirror the JavaScript semantics (which act on code units) and evaluate by
kernel reduction; the corresponding `String` library functions recurse on
byte positions and do not reduce. -/

/-- JavaScript `s.trim()`: strip whitespace from both ends. -/
def jsTrim (s : String) : String :=
  String.mk (((s.data.dropWhile Char.isWhitespace).reverse.dropWhile
    Char.isWhitespace).reverse)

/-- JavaScript `s.toLowerCase()`, character-wise. -/
def strToLower (s : String) : String := String.mk (s.data.map Char.toLower)

/-- JavaScript `s.startsWith(p)`. -/
def strStartsWith (s p : String) : Bool := p.data.isPrefixOf s.data

/-- JavaScript `String.prototype.split` with a single-character separator,
on the character list (keeps empty pieces, one more piece than separators). -/
def splitCharList (c : Char) : List Char → List (List Char)
  | [] => [[]]
  | x :: xs =>
    if x = c then [] :: splitCharList c xs
    else
      match splitCharList c xs with
      | h :: t => (x :: h) :: t
      | [] => [[x]]

/-- JavaScript `s.split(sep)` for a single-character separator. -/
def splitOnChar (c : Char) (s : String) : List String :=
  (splitCharList c s.data).map String.mk

/-- A non-empty all-digit string (the shape matched by the regex group
`(\d+)`). -/
def isDigitRun (s : String) : Bool :=
  !s.isEmpty && s.data.all isDigitChar

/-- Interpret a (non-empty) digit string as a natural number, as JavaScript's
`Number` does for digit-only input. -/
def digitsToNat (s : String) : Nat :=
  s.data.foldl (fun n c => n * 10 + (c.toNat - 48)) 0

/-- JavaScript `parseInt(s, 10)`: skip leading whitespace, read an optional
sign and a maximal run of leading digits; `none` models `NaN` (no digits
found). -/
def jsParseInt (s : String) : Option Int :=
  let cs := s.data.dropWhile Char.isWhitespace
  let (sign, cs) : Int × List Char :=
    match cs with
    | '-' :: rest => (-1, rest)
    | '+' :: rest => (1, rest)
    | rest => (1, rest)
  let digits := cs.takeWhile isDigitChar
  if digits.isEmpty then none
  else some (sign * (digitsToNat (String.mk digits) : Int))

/-- JavaScript `parseInt(s, 10) || 0`: `NaN` becomes `0`. -/
def jsParseIntOr0 (s : String) : Int :=
  match jsParseInt s with
  | some n => n
  | none => 0

/-- JavaScript `Math.round` of the non-negative rational `n / d` (`d > 0`):
round half toward positive infinity. -/
def jsRoundDiv (n d : Nat) : Nat := (n + d / 2) / d

/-- Strip every whitespace character, as `s.replace(/\s/g, "")` does
(the source only meets ASCII whitespace). -/
def stripWhitespace (s : String) : String :=
  String.mk (s.data.filter (fun c => !c.isWhitespace))

/-- Length of the trailing run of `'='` characters (the regex `/=+$/`). -/
def trailingEqCount (s : String) : Nat :=
  (s.data.reverse.takeWhile (fun c => c = '=')).length

/-- Is `c` in the base64 alphabet `[A-Za-z0-9+/]`? -/
def isBase64Char (c : Char) : Bool :=
  c.isAlpha || c.isDigit || c = '+' || c = '/'

/-- The regex test `/^[A-Za-z0-9+/]*=*$/.test(s)`: a run of base64 alphabet
characters followed by a run of `'='`. -/
def base64ShapeTest (s : String) : Bool :=
  let pad := trailingEqCount s
  let core := s.data.take (s.data.length - pad)
  core.all isBase64Char

/-! ## Data model (`src/core/types.ts`) -/

/-- Severity of a diagnostic message. -/
inductive Severity where
  | error
  | warning
  | info
deriving DecidableEq, Repr

/-- A single diagnostic produced by the validator. -/
structure Diagnostic where
  id : String
  severity : Severity
  message : String
  line : Option Nat := none
  column : Option Nat := none
  path : Option String := none
  fix : Option String := none
deriving DecidableEq, Repr

/-- An XML attribute. -/
structure XmlAttribute where
  name : String
  qname : String
  nsUri : String
  pfx : String
  value : String
deriving DecidableEq, Repr

/-- A parsed XML node: an element or a text node.  The element's attribute
record is modelled as an insertion-ordered association list keyed by the
qualified name.  The TypeScript tree also stores a parent back-reference used
only for path reconstruction; here the ancestor chain is passed explicitly to
`elementPath` instead (the tree itself is otherwise identical). -/
inductive XmlNode where
  | element (name qname nsUri pfx : String) (attributes : List XmlAttribute)
      (children : List XmlNode) (line column : Nat)
  | text (content : String) (line column : Nat)

/-- Structural equality on XML nodes (used to model the reference-identity
`indexOf` of `elementPath`; distinct sibling objects with identical structure
are indistinguishable here, which only affects the cosmetic sibling index in
path strings). -/
def XmlNode.beq : XmlNode → XmlNode → Bool
  | .element n q ns p as cs l c, .element n' q' ns' p' as' cs' l' c' =>
    n = n' && q = q' && ns = ns' && p = p' && as = as' && l = l' && c = c' &&
      beqChildren cs cs'
  | .text t l c, .text t' l' c' => t = t' && l = l' && c = c'
  | _, _ => false
where
  beqChildren : List XmlNode → List XmlNode → Bool
  | [], [] => true
  | x :: xs, y :: ys => XmlNode.beq x y && beqChildren xs ys
  | _, _ => false

instance : BEq XmlNode := ⟨XmlNode.beq⟩

namespace XmlNode

def isElement : XmlNode → Bool
  | element .. => true
  | text .. => false

def name : XmlNode → String
  | element n _ _ _ _ _ _ _ => n
  | text .. => ""

def qname : XmlNode → String
  | element _ q _ _ _ _ _ _ => q
  | text .. => ""

def nsUri : XmlNode → String
  | element _ _ ns _ _ _ _ _ => ns
  | text .. => ""

def attributes : XmlNode → List XmlAttribute
  | element _ _ _ _ attrs _ _ _ => attrs
  | text .. => []

def children : XmlNode → List XmlNode
  | element _ _ _ _ _ cs _ _ => cs
  | text .. => []

def line : XmlNode → Nat
  | element _ _ _ _ _ _ l _ => l
  | text _ l _ => l

def column : XmlNode → Nat
  | element _ _ _ _ _ _ _ c => c
  | text _ _ c => c

end XmlNode

/-- A parsed XML document: optional root plus the declared namespaces
(prefix → URI), insertion-ordered. -/
structure XmlDocument where
  root : Option XmlNode
  namespaces : List (String × String)

/-- Result of validating an appcast XML string. -/
structure ValidationResult where
  valid : Bool
  diagnostics : List Diagnostic
  errorCount : Nat
  warningCount : Nat
  infoCount : Nat
deriving DecidableEq, Repr

/-! ## External collaborators, modelled as oracles

The validator calls three runtime collaborators that are not part of the
repository's own code: the JavaScript `Date` constructor (inside
`parseRfc2822Date`), the WHATWG `URL` parser, and the wall clock.  They are
bundled into an `Ext` record and threaded through the rules that use them. -/

/-- The value of a successfully parsed JavaScript `Date`: its epoch
milliseconds (`getTime`) and its year (`getFullYear`). -/
structure JsDate where
  time : Int
  year : Int
deriving DecidableEq, Repr

/-- The fields of a parsed WHATWG `URL` used by the validator: `protocol`
(with trailing colon, e.g. `"https:"`), `hostname` (IPv6 hosts keep their
brackets, per the WHATWG specification), and `pathname`. -/
structure JsUrl where
  protocol : String
  hostname : String
  pathname : String
deriving DecidableEq, Repr

/-- The external runtime collaborators. `dateParse s = none` models
`isNaN(new Date(s).getTime())`; `urlParse s = none` models `new URL(s)`
throwing. -/
structure Ext where
  dateParse : String → Option JsDate
  nowMs : Int
  urlParse : String → Option JsUrl

/-! ## `src/core/validator.ts` — `consolidateDiagnostics`

The JavaScript implementation builds a `Map<string, Diagnostic[]>` keyed by
diagnostic id (a JS `Map` iterates keys in first-insertion order, and `set`
on an existing key keeps its position), then emits one diagnostic per group:
a singleton group passes through unchanged, a larger group keeps only its
first member with the message suffixed by the count of the extra occurrences.
The map is modelled as an association list of `(id, first, rest)` so each
group is non-empty by construction. -/

/-- One group of the `byId` map: the key, the first diagnostic pushed for it,
and the later ones in push order. -/
abbrev DiagGroup := String × Diagnostic × List Diagnostic

/-- `byId.get(d.id) || []; push(d); byId.set(d.id, ...)` : append `d` to its
group, creating the group at the end of the map if the id is new. -/
def insertDiag (m : List DiagGroup) (d : Diagnostic) : List DiagGroup :=
  if m.any (fun g => g.1 = d.id) then
    m.map (fun g => if g.1 = d.id then (g.1, g.2.1, g.2.2 ++ [d]) else g)
  else
    m ++ [(d.id, d, [])]

/-- The grouping pass of `consolidateDiagnostics`. -/
def groupById (ds : List Diagnostic) : List DiagGroup :=
  ds.foldl insertDiag []

/-- The consolidated message for a group of `count > 1` diagnostics:
`` `${first.message} (and ${count-1} more similar issue${count > 2 ? "s" : ""})` ``. -/
def consolidatedMessage (msg : String) (count : Nat) : String :=
  msg ++ " (and " ++ toString (count - 1) ++ " more similar issue" ++
    (if count > 2 then "s" else "") ++ ")"

/-- Emit one diagnostic for a group, as the second loop of
`consolidateDiagnostics` does. -/
def emitGroup (g : DiagGroup) : Diagnostic :=
  match g with
  | (_, first, rest) =>
    if rest.isEmpty then first
    else { first with message := consolidatedMessage first.message (1 + rest.length) }

/-- `consolidateDiagnostics` from `src/core/validator.ts`. -/
def consolidateDiagnostics (ds : List Diagnostic) : List Diagnostic :=
  (groupById ds).map emitGroup

/-! A second formulation of consolidation, written from the specification's
words ("group by id, and for any group with more than one member, retain only
the first member with its message suffixed by a count of additional
occurrences; groups of size one pass through unchanged") for the refinement
proof of claim C8. -/

/-- The distinct ids of `ds`, in order of first occurrence. -/
def firstOccurrenceIds (ds : List Diagnostic) : List String :=
  ds.foldl (fun ks d => if ks.contains d.id then ks else ks ++ [d.id]) []

/-- Specification-side consolidation: for each id (in first-occurrence
order), take the group of all diagnostics with that id (in original order);
pass singleton groups through, otherwise keep the first member with the
count suffix on its message. -/
def consolidateSpec (ds : List Diagnostic) : List Diagnostic :=
  (firstOccurrenceIds ds).filterMap (fun i =>
    match ds.filter (fun d => d.id = i) with
    | [] => none
    | [d] => some d
    | d :: rest => some { d with message := consolidatedMessage d.message (1 + rest.length) })

/-- The canonical form of the `byId` map: one group per first-occurring id,
holding the filtered sub-sequence of diagnostics with that id. -/
def canonicalGroups (ds : List Diagnostic) : List DiagGroup :=
  (firstOccurrenceIds ds).filterMap (fun i =>
    match ds.filter (fun d => d.id = i) with
    | [] => none
    | f :: r => some (i, f, r))





/-! ## Result assembly: the severity/line sort of `validate`

`validate` sorts the consolidated diagnostics with the comparator
`severityOrder[a] - severityOrder[b]`, tie-broken by `(a.line ?? 0) -
(b.line ?? 0)`.  JavaScript's `Array.prototype.sort` is stable, so the result
is the unique stable sort under that comparator; it is modelled by a stable
insertion sort on the comparator's key. -/

/-- `severityOrder = { error: 0, warning: 1, info: 2 }`. -/
def severityOrder : Severity → Nat
  | .error => 0
  | .warning => 1
  | .info => 2

/-- `a.line ?? 0`. -/
def lineOrZero (d : Diagnostic) : Nat := d.line.getD 0

/-- The sort key of the comparator in `validate`. -/
def sortKey (d : Diagnostic) : Nat × Nat := (severityOrder d.severity, lineOrZero d)

/-- Lexicographic `≤` on sort keys (the comparator returns a non-positive
number exactly when this holds). -/
def keyLe (x y : Nat × Nat) : Bool := x.1 < y.1 || (x.1 = y.1 && x.2 ≤ y.2)

/-- Insert `a` after every already-placed diagnostic whose key is `≤` its
own — the placement a stable sort gives to a later-arriving element. -/
def insertStable (a : Diagnostic) : List Diagnostic → List Diagnostic
  | [] => [a]
  | b :: bs => if keyLe (sortKey b) (sortKey a) then b :: insertStable a bs else a :: b :: bs

/-- The stable severity/line sort of `validate`. -/
def sortDiagnostics (ds : List Diagnostic) : List Diagnostic :=
  ds.foldl (fun acc d => insertStable d acc) []


/-! ## Constants (`src/core/constants.ts`) -/

/-- The canonical Sparkle XML namespace URI. -/
def SPARKLE_NS : String := "http://www.andymatuschak.org/xml-namespaces/sparkle"

/-- Acceptable Sparkle namespace variants. -/
def SPARKLE_NS_VARIANTS : List String :=
  [ "http://www.andymatuschak.org/xml-namespaces/sparkle",
    "http://andymatuschak.org/xml-namespaces/sparkle",
    "https://www.andymatuschak.org/xml-namespaces/sparkle",
    "https://andymatuschak.org/xml-namespaces/sparkle" ]

/-- `isSparkleNamespace` from `constants.ts`. -/
def isSparkleNamespace (ns : String) : Bool :=
  SPARKLE_NS_VARIANTS.contains ns

/-- Valid installation type values. -/
def VALID_INSTALLATION_TYPES : List String := ["application", "package"]

/-- Standard enclosure MIME type. -/
def ENCLOSURE_MIME_TYPE : String := "application/octet-stream"

/-- `MACOS_VERSION_REGEX = /^\d+(\.\d+){0,2}$/`: one to three dot-separated
digit runs. -/
def macosVersionTest (s : String) : Bool :=
  let parts := splitOnChar '.' s
  decide (1 ≤ parts.length) && decide (parts.length ≤ 3) && parts.all isDigitRun

/-! ## Tree helpers (`src/core/rules/utils.ts`) -/

/-- `childElements`: direct children with the given local name and no
namespace (`!c.namespace`). -/
def childElements (parent : XmlNode) (localName : String) : List XmlNode :=
  parent.children.filter
    (fun c => c.isElement && c.name = localName && c.nsUri = "")

/-- `sparkleChildElements`: direct children with the given local name in the
canonical Sparkle namespace. -/
def sparkleChildElements (parent : XmlNode) (localName : String) : List XmlNode :=
  parent.children.filter
    (fun c => c.isElement && c.name = localName && c.nsUri = SPARKLE_NS)

/-- `childElement`: first matching un-namespaced child. -/
def childElement (parent : XmlNode) (localName : String) : Option XmlNode :=
  (childElements parent localName).head?

/-- `sparkleChildElement`. -/
def sparkleChildElement (parent : XmlNode) (localName : String) : Option XmlNode :=
  (sparkleChildElements parent localName).head?

/-- `textContent`: concatenation of the direct text children. -/
def textContent (element : XmlNode) : String :=
  String.join (element.children.filterMap (fun c =>
    match c with
    | .text t _ _ => some t
    | .element .. => none))

/-- `attr`: attribute value by qualified name (`attributes[qname]?.value`). -/
def attr (element : XmlNode) (qname : String) : Option String :=
  (element.attributes.find? (fun a => a.qname = qname)).map (fun a => a.value)

/-- `sparkleAttr`: a Sparkle-namespaced attribute, falling back to the
prefix-written qualified name. -/
def sparkleAttr (element : XmlNode) (localName : String) : Option String :=
  match element.attributes.find?
      (fun a => a.nsUri = SPARKLE_NS && a.name = localName) with
  | some a => some a.value
  | none => attr element ("sparkle:" ++ localName)

/-- The label of one path component: `sparkle:`-prefixed when in the Sparkle
namespace, with a 1-based sibling index when same-named siblings exist.  The
TypeScript walks the parent back-reference; here the parent is passed in. -/
def pathLabel (parentOpt : Option XmlNode) (el : XmlNode) : String :=
  let base := if el.nsUri = SPARKLE_NS then "sparkle:" ++ el.name else el.name
  match parentOpt with
  | none => base
  | some p =>
    let siblings := p.children.filter
      (fun c => c.isElement && c.name = el.name && c.nsUri = el.nsUri)
    if siblings.length > 1 then
      let idx := (siblings.findIdx? (fun c => c == el)).getD 0
      base ++ "[" ++ toString (idx + 1) ++ "]"
    else base

/-- `elementPath`: the human-readable path from the root down to `el`.
`ancestors` is the chain from the root to `el`'s parent (the information the
TypeScript recovers from parent back-references). -/
def elementPath (ancestors : List XmlNode) (el : XmlNode) : String :=
  let nodes := ancestors ++ [el]
  let parents : List (Option XmlNode) := none :: nodes.map some
  String.intercalate " > " ((nodes.zip parents).map (fun np => pathLabel np.2 np.1))

/-- `isNonNegativeInteger` (`/^\d+$/`). -/
def isNonNegativeInteger (value : String) : Bool := isDigitRun value

/-- Remove the first occurrence of `c` from `s` (JavaScript
`s.replace(":", "")` replaces only the first match of a string pattern). -/
def removeFirstChar (c : Char) (s : String) : String :=
  let rec go : List Char → List Char
    | [] => []
    | x :: xs => if x = c then xs else x :: go xs
  String.mk (go s.data)

/-- `isValidUrl`: the URL parses and its scheme is in the allowed list. -/
def isValidUrl (ext : Ext) (url : String)
    (allowedSchemes : List String := ["https", "http"]) : Bool :=
  match ext.urlParse url with
  | none => false
  | some u => allowedSchemes.contains (removeFirstChar ':' u.protocol)

/-- Lookup in a JavaScript string-keyed record (`m[k]?`), modelled as an
association list. -/
def recordGet (m : List (String × String)) (k : String) : Option String :=
  (m.find? (fun p => p.1 = k)).map (fun p => p.2)

/-! ### The RFC 2822 date test of `parseRfc2822Date` (`utils.ts`)

The regex
`^(Mon|Tue|Wed|Thu|Fri|Sat|Sun),?\s+\d{1,2}\s+(Jan|...|Dec)\s+\d{4}\s+\d{2}:\d{2}(:\d{2})?\s+[+-]\d{4}$`
is embedded as a deterministic scanner (every alternation/option in the
pattern is decided by the next character, so no backtracking is needed). -/

/-- Consume one alternative from `alts` at the head of `cs`. -/
def eatAlt (alts : List String) (cs : List Char) : Option (List Char) :=
  match alts.find? (fun a => a.data.isPrefixOf cs) with
  | some a => some (cs.drop a.length)
  | none => none

/-- Consume one or more whitespace characters (`\s+`). -/
def eatWs1 (cs : List Char) : Option (List Char) :=
  match cs with
  | c :: rest => if c.isWhitespace then some (rest.dropWhile Char.isWhitespace) else none
  | [] => none

/-- Consume a maximal digit run and require its length to be in
`[lo, hi]` (`\d{lo,hi}` followed by a non-digit or the end). -/
def eatDigits (lo hi : Nat) (cs : List Char) : Option (List Char) :=
  let run := cs.takeWhile isDigitChar
  if lo ≤ run.length ∧ run.length ≤ hi then some (cs.drop run.length) else none

/-- Consume a literal character. -/
def eatChar (c : Char) (cs : List Char) : Option (List Char) :=
  match cs with
  | x :: rest => if x = c then some rest else none
  | [] => none

/-- The `rfc2822Pattern.test(dateStr.trim())` check. -/
def rfc2822Test (s : String) : Bool :=
  let step : Option (List Char) := some (jsTrim s).data
  let step := step.bind (eatAlt ["Mon", "Tue", "Wed", "Thu", "Fri", "Sat", "Sun"])
  let step := step.map (fun cs => match cs with
    | ',' :: rest => rest
    | rest => rest)
  let step := step.bind eatWs1
  let step := step.bind (eatDigits 1 2)
  let step := step.bind eatWs1
  let step := step.bind (eatAlt ["Jan", "Feb", "Mar", "Apr", "May", "Jun",
    "Jul", "Aug", "Sep", "Oct", "Nov", "Dec"])
  let step := step.bind eatWs1
  let step := step.bind (eatDigits 4 4)
  let step := step.bind eatWs1
  let step := step.bind (eatDigits 2 2)
  let step := step.bind (eatChar ':')
  let step := step.bind (eatDigits 2 2)
  let step := step.bind (fun cs => match cs with
    | ':' :: rest => (eatDigits 2 2 rest)
    | rest => some rest)
  let step := step.bind eatWs1
  let step := step.bind (fun cs => match cs with
    | '+' :: rest => some rest
    | '-' :: rest => some rest
    | _ => none)
  let step := step.bind (eatDigits 4 4)
  match step with
  | some [] => true
  | _ => false

/-- `parseRfc2822Date` from `utils.ts`: `new Date(dateStr)` must give a valid
date (the external `Date` parser is the `ext.dateParse` oracle) and the
trimmed string must pass the RFC 2822 shape test. -/
def parseRfc2822Date (ext : Ext) (dateStr : String) : Option JsDate :=
  match ext.dateParse dateStr with
  | none => none
  | some d => if rfc2822Test (jsTrim dateStr) then some d else none

/-! ## Rule modules

Every rule module has the TypeScript signature `(doc, diagnostics) -> void`
and only ever appends to the sink, so each is embedded as a pure emission
function `... → XmlDocument → List Diagnostic` (the diagnostics pushed, in
push order); the sink-passing form is `fun doc ds => ds ++ emit doc`. -/

/-- A validation rule in sink-passing form. -/
abbrev ValidationRule := XmlDocument → List Diagnostic → List Diagnostic

/-! ### `src/core/rules/structure.ts` -/

/-- The diagnostics pushed by `structureRules`.
Rule ids: E002, E003, E004, W026 (namespace variant), E005, E006, E007. -/
def structureRulesEmit (doc : XmlDocument) : List Diagnostic :=
  match doc.root with
  | none => []  -- E001 already reported by parser
  | some root =>
    if root.name ≠ "rss" then
      [{ id := "E002", severity := .error,
         message := "Root element is <" ++ root.qname ++ ">, expected <rss>",
         line := some root.line, column := some root.column,
         path := some (elementPath [] root),
         fix := some "Change the root element to <rss>" }]
    else
      let version := attr root "version"
      let e003 : List Diagnostic :=
        if version ≠ some "2.0" then
          [{ id := "E003", severity := .error,
             message := if jsTruthy version then
                 "<rss> version is \"" ++ jsOrEmpty version ++ "\", expected \"2.0\""
               else "<rss> is missing version=\"2.0\" attribute",
             line := some root.line, column := some root.column,
             path := some (elementPath [] root),
             fix := some "Add version=\"2.0\" to the <rss> element" }]
        else []
      let sparkleNsUri := recordGet doc.namespaces "sparkle"
      let e004 : List Diagnostic :=
        if !(jsTruthy sparkleNsUri) then
          [{ id := "E004", severity := .error,
             message := "Missing Sparkle namespace declaration (xmlns:sparkle)",
             line := some root.line, column := some root.column,
             path := some (elementPath [] root),
             fix := some ("Add xmlns:sparkle=\"" ++ SPARKLE_NS ++ "\" to the <rss> element") }]
        else if jsOrEmpty sparkleNsUri ≠ SPARKLE_NS then
          [{ id := "W026", severity := .warning,
             message := "Sparkle namespace URI \"" ++ jsOrEmpty sparkleNsUri ++
               "\" differs from canonical \"" ++ SPARKLE_NS ++ "\"",
             line := some root.line, column := some root.column,
             path := some (elementPath [] root),
             fix := some ("Consider using the canonical namespace URI \"" ++ SPARKLE_NS ++ "\"") }]
        else []
      let channels := childElements root "channel"
      match channels with
      | [] =>
        e003 ++ e004 ++
          [{ id := "E005", severity := .error,
             message := "Missing <channel> element inside <rss>",
             line := some root.line, column := some root.column,
             path := some (elementPath [] root),
             fix := some "Add a <channel> element as a child of <rss>" }]
      | channel :: restChannels =>
        let e006 : List Diagnostic :=
          match restChannels with
          | [] => []
          | second :: _ =>
            [{ id := "E006", severity := .error,
               message := "Found " ++ toString channels.length ++
                 " <channel> elements, expected exactly 1",
               line := some second.line, column := some second.column,
               path := some (elementPath [root] second),
               fix := some "Remove extra <channel> elements; RSS 2.0 allows only one" }]
        let items := childElements channel "item"
        let e007 : List Diagnostic :=
          if items.isEmpty then
            [{ id := "E007", severity := .error,
               message := "No <item> elements found in <channel>",
               line := some channel.line, column := some channel.column,
               path := some (elementPath [root] channel),
               fix := some "Add at least one <item> element to the channel" }]
          else []
        e003 ++ e004 ++ e006 ++ e007

/-- `structureRules` in sink-passing form. -/
def structureRules (doc : XmlDocument) (ds : List Diagnostic) : List Diagnostic :=
  ds ++ structureRulesEmit doc

/-! ### `src/core/rules/version.ts`

The repository snapshot carries this module in several revisions; the one
embedded here is the current one (the revision with E029/W041/W027/W028 and
W015 removed, matching the 1.1.0+ changelog). -/

/-- `isNumericVersion` (`/^\d+(\.\d+)*$/`). -/
def isNumericVersion (version : String) : Bool :=
  (splitOnChar '.' version).all isDigitRun

/-- Index of the last occurrence of `c` in `s` (`lastIndexOf`), if any. -/
def lastIndexOfChar (c : Char) (s : String) : Option Nat :=
  match s.data.reverse.findIdx? (fun x => x = c) with
  | none => none
  | some j => some (s.data.length - 1 - j)

/-- `lastIndexOf` on a character list. -/
def lastIdxList (c : Char) (l : List Char) : Option Nat :=
  match l.reverse.findIdx? (fun x => x = c) with
  | none => none
  | some j => some (l.length - 1 - j)

/-- `extractVersionFromUrl`: split the URL on `_`, take the last component,
strip the extension after the last dot, and require at least one digit
(working on the character list; JavaScript `split`/`lastIndexOf`/`substring`
act on the same units). -/
def extractVersionFromUrl (url : String) : Option String :=
  let components := splitCharList '_' url.data
  if components.length < 2 then none
  else
    match components.getLast? with
    | none => none
    | some lastComponent =>
      match lastIdxList '.' lastComponent with
      | none => some (String.mk lastComponent)  -- no extension
      | some lastDotIndex =>
        let version := lastComponent.take lastDotIndex
        if version.isEmpty || !(version.any isDigitChar) then none
        else some (String.mk version)

/-- The indexed comparison loop of `compareVersions` (`parts[i] || 0` pads
missing components with `0`). -/
def cmpParts : List Int → List Int → Int
  | [], [] => 0
  | [], q :: qs => if 0 ≠ q then 0 - q else cmpParts [] qs
  | p :: ps, [] => if p ≠ 0 then p else cmpParts ps []
  | p :: ps, q :: qs => if p ≠ q then p - q else cmpParts ps qs

/-- `compareVersions` from `version.ts` (`parseInt(p, 10) || 0` on each
dot-separated component). -/
def compareVersions (v1 v2 : String) : Int :=
  cmpParts ((splitOnChar '.' v1).map jsParseIntOr0) ((splitOnChar '.' v2).map jsParseIntOr0)

/-- Generic stable insertion by an integer key (models stable
`Array.prototype.sort` under a numeric comparator). -/
def insertStableKeyed {α : Type} (key : α → Int) (a : α) : List α → List α
  | [] => [a]
  | b :: bs => if key b ≤ key a then b :: insertStableKeyed key a bs else a :: b :: bs

/-- Generic stable sort by an integer key. -/
def stableSortKeyed {α : Type} (key : α → Int) (l : List α) : List α :=
  l.foldl (fun acc x => insertStableKeyed key x acc) []

/-- An insertion-ordered multimap, as built by pushing values into a JS
`Map<string, T[]>`. -/
def multiMapInsert {α : Type} (m : List (String × List α)) (k : String) (v : α) :
    List (String × List α) :=
  if m.any (fun g => g.1 = k) then
    m.map (fun g => if g.1 = k then (g.1, g.2 ++ [v]) else g)
  else
    m ++ [(k, [v])]

def buildMultiMap {α : Type} (kvs : List (String × α)) : List (String × List α) :=
  kvs.foldl (fun m kv => multiMapInsert m kv.1 kv.2) []

/-- What one iteration of the `versionRules` item loop produces: the pushed
diagnostics, the `versionMap` entry (key, item) and the
`itemsWithDateAndVersion` entry, if reached. -/
structure VersionItemOut where
  diags : List Diagnostic
  mapEntry : Option (String × XmlNode)
  dateEntry : Option (XmlNode × String × JsDate)

/-- The `sparkle:version` element text of an item, trimmed
(`versionEl ? textContent(versionEl).trim() : undefined`). -/
def versionElText (item : XmlNode) : Option String :=
  (sparkleChildElement item "version").map (fun e => (jsTrim (textContent e)))

/-- The `sparkle:version` attribute of the item's enclosure. -/
def enclosureVersionAttr (item : XmlNode) : Option String :=
  (childElement item "enclosure").bind (fun e => sparkleAttr e "version")

/-- `explicitVersion = versionElText || enclosureVersion`. -/
def explicitVersion (item : XmlNode) : Option String :=
  jsOr (versionElText item) (enclosureVersionAttr item)

/-- The filename-deduced fallback
(`enclosureUrl ? extractVersionFromUrl(enclosureUrl) : null`). -/
def filenameVersion (item : XmlNode) : Option String :=
  let enclosureUrl := (childElement item "enclosure").bind (fun e => attr e "url")
  if jsTruthy enclosureUrl then extractVersionFromUrl (jsOrEmpty enclosureUrl) else none

/-- `version = explicitVersion || filenameVersion!`: the version every later
check in the item loop uses (the explicit one always takes precedence). -/
def effectiveVersion (item : XmlNode) : String :=
  jsOrEmpty (jsOr (explicitVersion item) (filenameVersion item))

/-- One iteration of the `versionRules` item loop. -/
def versionItemScan (ext : Ext) (root channel item : XmlNode) : VersionItemOut :=
  let versionEl := sparkleChildElement item "version"
  let enclosure := childElement item "enclosure"
  let enclosureVersion := enclosureVersionAttr item
  -- E029: empty/whitespace-only versions
  let e029El : List Diagnostic :=
    match versionEl with
    | none => []
    | some vEl =>
      let rawText := textContent vEl
      if rawText.isEmpty || (jsTrim rawText) = "" then
        [{ id := "E029", severity := .error,
           message := "<sparkle:version> element is empty or whitespace-only",
           line := some vEl.line, column := some vEl.column,
           path := some (elementPath [root, channel, item] vEl),
           fix := some "Set the version to a valid build number (e.g., 100 or 1.0.0)" }]
      else []
  let e029Attr : List Diagnostic :=
    match enclosure with
    | none => []
    | some enc =>
      match enclosureVersion with
      | none => []
      | some v =>
        if (jsTrim v) = "" then
          [{ id := "E029", severity := .error,
             message := "sparkle:version attribute on enclosure is empty",
             line := some enc.line, column := some enc.column,
             path := some (elementPath [root, channel, item] enc),
             fix := some "Set the version to a valid build number (e.g., 100 or 1.0.0)" }]
        else []
  let fv := filenameVersion item
  -- E008/W041: no explicit version
  if !(jsTruthy (explicitVersion item)) && !(jsTruthy fv) then
    -- E008 and `continue`
    { diags := e029El ++ e029Attr ++
        [{ id := "E008", severity := .error,
           message := "Item is missing sparkle:version (neither element nor enclosure attribute, and cannot be deduced from filename)",
           line := some item.line, column := some item.column,
           path := some (elementPath [root, channel] item),
           fix := some "Add a <sparkle:version> element or sparkle:version attribute on <enclosure>" }],
      mapEntry := none, dateEntry := none }
  else
    let w041 : List Diagnostic :=
      if !(jsTruthy (explicitVersion item)) then
        [{ id := "W041", severity := .warning,
           message := "Item has no sparkle:version but Sparkle may deduce \"" ++
             jsOrEmpty fv ++ "\" from filename",
           line := some item.line, column := some item.column,
           path := some (elementPath [root, channel] item),
           fix := some ("Add <sparkle:version>" ++ jsOrEmpty fv ++
             "</sparkle:version> explicitly instead of relying on filename parsing") }]
      else []
    let version := effectiveVersion item
    -- W027: non-numeric version string
    let w027 : List Diagnostic :=
      if !(isNumericVersion version) then
        match versionEl.or enclosure with
        | some versionLocation =>
          [{ id := "W027", severity := .warning,
             message := "Version \"" ++ version ++
               "\" contains non-numeric characters; Sparkle's version comparison may fail",
             line := some versionLocation.line, column := some versionLocation.column,
             path := some (elementPath [root, channel, item] versionLocation),
             fix := some "Use a purely numeric version (e.g., 100 or 1.0.0) for reliable comparisons" }]
        | none => []  -- unreachable: a version implies one of the two locations
      else []
    -- collect date for W028
    let dateEntry : Option (XmlNode × String × JsDate) :=
      match childElement item "pubDate" with
      | some pubDateEl =>
        if isNumericVersion version then
          match parseRfc2822Date ext ((jsTrim (textContent pubDateEl))) with
          | some d => some (item, version, d)
          | none => none
        else none
      | none => none
    -- W007: redundant version
    let w007 : List Diagnostic :=
      if jsTruthy (versionElText item) && jsTruthy enclosureVersion &&
          versionElText item = enclosureVersion then
        match enclosure with
        | some enc =>
          [{ id := "W007", severity := .warning,
             message := "Version \"" ++ version ++
               "\" is declared both as a <sparkle:version> element and enclosure attribute",
             line := some enc.line, column := some enc.column,
             path := some (elementPath [root, channel, item] enc),
             fix := some "Remove the sparkle:version attribute from <enclosure>; the element is sufficient" }]
        | none => []  -- unreachable: a truthy enclosure version implies the enclosure
      else []
    -- W008: redundant shortVersionString
    let svElText := (sparkleChildElement item "shortVersionString").map
      (fun e => (jsTrim (textContent e)))
    let enclosureSv := enclosure.bind (fun e => sparkleAttr e "shortVersionString")
    let w008 : List Diagnostic :=
      if jsTruthy svElText && jsTruthy enclosureSv && svElText = enclosureSv then
        match enclosure with
        | some enc =>
          [{ id := "W008", severity := .warning,
             message := "shortVersionString \"" ++ jsOrEmpty svElText ++
               "\" is declared both as element and enclosure attribute",
             line := some enc.line, column := some enc.column,
             path := some (elementPath [root, channel, item] enc),
             fix := some "Remove the sparkle:shortVersionString attribute from <enclosure>" }]
        | none => []  -- unreachable
      else []
    -- versionMap key for W020
    let os := enclosure.bind (fun e => sparkleAttr e "os")
    let channelName := (sparkleChildElement item "channel").map
      (fun e => (jsTrim (textContent e)))
    let key := version ++ "|" ++ jsOrEmpty os ++ "|" ++ jsOrEmpty channelName
    { diags := e029El ++ e029Attr ++ w041 ++ w027 ++ w007 ++ w008,
      mapEntry := some (key, item), dateEntry := dateEntry }

/-- The diagnostics pushed by `versionRules` (current revision): the per-item
loop, then the W020 duplicate-version pass, then the W028
version-vs-pubDate ordering pass. -/
def versionRulesEmit (ext : Ext) (doc : XmlDocument) : List Diagnostic :=
  match doc.root with
  | none => []
  | some root =>
    if root.name ≠ "rss" then []
    else
      match childElement root "channel" with
      | none => []
      | some channel =>
        let items := childElements channel "item"
        let outs := items.map (versionItemScan ext root channel)
        let itemDiags := (outs.map (fun o => o.diags)).flatten
        let versionMap := buildMultiMap (outs.filterMap (fun o => o.mapEntry))
        let w020 := (versionMap.map (fun g =>
          if g.2.length > 1 then
            let version := ((splitOnChar '|' g.1).head?).getD ""
            (g.2.drop 1).map (fun dup =>
              { id := "W020", severity := .warning,
                message := "Duplicate version \"" ++ version ++
                  "\" found without differing os or channel",
                line := some dup.line, column := some dup.column,
                path := some (elementPath [root, channel] dup),
                fix := some "Ensure each version is unique per os/channel combination, or remove the duplicate item" })
          else [])).flatten
        let dateItems := outs.filterMap (fun o => o.dateEntry)
        let w028 :=
          if dateItems.length ≥ 2 then
            let sortedByDate := stableSortKeyed (fun e => e.2.2.time) dateItems
            ((sortedByDate.zip (sortedByDate.drop 1)).map (fun pc =>
              let prev := pc.1
              let curr := pc.2
              if compareVersions curr.2.1 prev.2.1 < 0 then
                [{ id := "W028", severity := .warning,
                   message := "Version \"" ++ curr.2.1 ++ "\" is older than \"" ++
                     prev.2.1 ++ "\" but has a newer pubDate",
                   line := some curr.1.line, column := some curr.1.column,
                   path := some (elementPath [root, channel] curr.1),
                   fix := some "Verify that the version and pubDate are correct; newer dates should have newer versions" }]
              else [])).flatten
          else []
        itemDiags ++ w020 ++ w028

/-- `versionRules` in sink-passing form. -/
def versionRules (ext : Ext) (doc : XmlDocument) (ds : List Diagnostic) : List Diagnostic :=
  ds ++ versionRulesEmit ext doc

/-! ### `src/core/rules/enclosure.ts` -/

/-- The signature algorithm tag of `validateSignature`. -/
inductive SigType where
  | ed
  | dsa
deriving DecidableEq, Repr

/-- `validateSignature`: `none` is `{ valid: true }`, `some reason` is
`{ valid: false, reason }`.  Strip whitespace, test the base64 shape, test
padding (`length % 4`), compute the decoded byte count from the encoded
length and trailing `=` count, then apply the per-algorithm length test. -/
def decodedByteCount (cleanSig : String) : Int :=
  ((cleanSig.length : Int) * 3) / 4 - trailingEqCount cleanSig

def validateSignature (sig : String) (type : SigType) : Option String :=
  let cleanSig := stripWhitespace sig
  if !(base64ShapeTest cleanSig) then some "contains invalid base64 characters"
  else if cleanSig.length % 4 ≠ 0 then some "base64 padding is incorrect"
  else
    let decodedBytes : Int := decodedByteCount cleanSig
    match type with
    | .ed =>
      if decodedBytes ≠ 64 then
        some ("Ed25519 signature must be 64 bytes, got " ++ toString decodedBytes)
      else none
    | .dsa =>
      if decodedBytes < 40 || decodedBytes > 150 then
        some ("DSA signature length " ++ toString decodedBytes ++ " bytes is unusual")
      else none

/-- Valid values for the `sparkle:os` attribute. -/
def VALID_OS_VALUES : List String := ["macos", "windows"]

/-- The diagnostics `validateEnclosure` pushes for one enclosure element
(`ancestors` is the chain the parent back-references encode): E010, W011,
W012, E013, W019, W010, I010/W006, and E031 for each truthy (non-empty)
signature — `if (edSig)` skips validation entirely for an empty value. -/
def validateEnclosureEmit (ancestors : List XmlNode) (enclosure : XmlNode) :
    List Diagnostic :=
  let url := attr enclosure "url"
  let length := attr enclosure "length"
  let type := attr enclosure "type"
  let here := elementPath ancestors enclosure
  let mk : String → Severity → String → Option String → Diagnostic := fun i sev msg fix =>
    { id := i, severity := sev, message := msg,
      line := some enclosure.line, column := some enclosure.column,
      path := some here, fix := fix }
  let e010 := if !(jsTruthy url) then
      [mk "E010" .error "<enclosure> is missing the url attribute"
        (some "Add a url attribute to the <enclosure> element")] else []
  let w011 := if length = none then
      [mk "W011" .warning "<enclosure> is missing the length attribute"
        (some "Add a length attribute with the file size in bytes")] else []
  let w012 := if !(jsTruthy type) then
      [mk "W012" .warning "<enclosure> is missing the type attribute"
        (some ("Add type=\"" ++ ENCLOSURE_MIME_TYPE ++ "\" to the <enclosure> element"))] else []
  let e013 :=
    match length with
    | some l =>
      if !(isNonNegativeInteger l) then
        [mk "E013" .error
          ("Enclosure length \"" ++ l ++ "\" is not a valid non-negative integer")
          (some "Set length to the file size in bytes (a non-negative integer)")]
      else []
    | none => []
  let w019 := if length = some "0" then
      [mk "W019" .warning "Enclosure length is 0; this is usually a mistake"
        (some "Set length to the actual file size in bytes")] else []
  let w010 :=
    if jsTruthy type && jsOrEmpty type ≠ ENCLOSURE_MIME_TYPE then
      [mk "W010" .warning
        ("Enclosure type is \"" ++ jsOrEmpty type ++ "\", expected \"" ++
          ENCLOSURE_MIME_TYPE ++ "\"")
        (some ("Change type to \"" ++ ENCLOSURE_MIME_TYPE ++ "\""))]
    else []
  let edSig := sparkleAttr enclosure "edSignature"
  let dsaSig := sparkleAttr enclosure "dsaSignature"
  let sigPresence :=
    if !(jsTruthy edSig) && !(jsTruthy dsaSig) then
      [mk "I010" .info
        "Enclosure has no signature (signatures are optional but recommended)"
        (some "Consider adding a sparkle:edSignature attribute for EdDSA signing")]
    else if jsTruthy dsaSig && !(jsTruthy edSig) then
      [mk "W006" .warning
        "Enclosure only has a DSA signature; DSA is deprecated in favor of EdDSA"
        (some "Add a sparkle:edSignature attribute and consider removing dsaSignature")]
    else []
  let e031Ed :=
    if jsTruthy edSig then
      match validateSignature (jsOrEmpty edSig) .ed with
      | some reason =>
        [mk "E031" .error ("edSignature is invalid: " ++ reason)
          (some "Ed25519 signatures must be exactly 64 bytes encoded as base64 (88 characters)")]
      | none => []
    else []
  let e031Dsa :=
    if jsTruthy dsaSig then
      match validateSignature (jsOrEmpty dsaSig) .dsa with
      | some reason =>
        [mk "E031" .error ("dsaSignature is invalid: " ++ reason)
          (some "Ensure the signature is a valid base64-encoded DSA signature")]
      | none => []
    else []
  e010 ++ w011 ++ w012 ++ e013 ++ w019 ++ w010 ++ sigPresence ++ e031Ed ++ e031Dsa

/-- The diagnostics `validateDeltas` pushes for one `<sparkle:deltas>`
container: E023 when empty, per-descriptor E024/I012/E025 plus the shared
enclosure checks, then W032 for duplicated `deltaFrom` versions. -/
def validateDeltasEmit (ancestors : List XmlNode) (deltasEl : XmlNode)
    (feedVersions : List String) : List Diagnostic :=
  let deltaEnclosures := childElements deltasEl "enclosure"
  let chain := ancestors ++ [deltasEl]
  if deltaEnclosures.isEmpty then
    [{ id := "E023", severity := .error,
       message := "<sparkle:deltas> element has no <enclosure> children",
       line := some deltasEl.line, column := some deltasEl.column,
       path := some (elementPath ancestors deltasEl),
       fix := some "Add <enclosure> elements inside <sparkle:deltas> for each delta update" }]
  else
    let perDelta := (deltaEnclosures.map (fun deltaEnc =>
      let deltaFrom := sparkleAttr deltaEnc "deltaFrom"
      let e024OrI012 :=
        if !(jsTruthy deltaFrom) then
          [{ id := "E024", severity := .error,
             message := "Delta <enclosure> is missing sparkle:deltaFrom attribute",
             line := some deltaEnc.line, column := some deltaEnc.column,
             path := some (elementPath chain deltaEnc),
             fix := some "Add sparkle:deltaFrom=\"<previousVersion>\" to the delta enclosure" }]
        else if !(feedVersions.contains (jsOrEmpty deltaFrom)) then
          [{ id := "I012", severity := .info,
             message := "Delta references version \"" ++ jsOrEmpty deltaFrom ++
               "\" which does not exist in the feed",
             line := some deltaEnc.line, column := some deltaEnc.column,
             path := some (elementPath chain deltaEnc),
             fix := some "This is normal if the deltaFrom version has been pruned from the feed" }]
        else []
      let e025 :=
        if !(jsTruthy (attr deltaEnc "url")) then
          [{ id := "E025", severity := .error,
             message := "Delta <enclosure> is missing the url attribute",
             line := some deltaEnc.line, column := some deltaEnc.column,
             path := some (elementPath chain deltaEnc),
             fix := some "Add a url attribute pointing to the delta update file" }]
        else []
      e024OrI012 ++ e025 ++ validateEnclosureEmit chain deltaEnc)).flatten
    -- duplicate `deltaFrom` tracking (only descriptors with a truthy
    -- `deltaFrom` are recorded)
    let deltaFromVersions := buildMultiMap (deltaEnclosures.filterMap (fun deltaEnc =>
      let deltaFrom := sparkleAttr deltaEnc "deltaFrom"
      if jsTruthy deltaFrom then some (jsOrEmpty deltaFrom, deltaEnc) else none))
    let w032 := (deltaFromVersions.map (fun g =>
      if g.2.length > 1 then
        (g.2.drop 1).map (fun enc =>
          { id := "W032", severity := .warning,
            message := "Duplicate delta enclosure for deltaFrom=\"" ++ g.1 ++ "\"",
            line := some enc.line, column := some enc.column,
            path := some (elementPath chain enc),
            fix := some "Remove duplicate delta enclosures; only one delta per source version is needed" })
      else [])).flatten
    perDelta ++ w032

/-- The feed-version set collected at the top of `enclosureRules` (used by
the I012 check); modelled as the list of inserted values, since only
membership is consumed. -/
def feedVersionsOf (items : List XmlNode) : List String :=
  (items.map (fun item =>
    let fromEl :=
      match sparkleChildElement item "version" with
      | some versionEl =>
        let version := (jsTrim (textContent versionEl))
        if !version.isEmpty then [version] else []
      | none => []
    let fromAttr :=
      match childElement item "enclosure" with
      | some enclosure =>
        match sparkleAttr enclosure "version" with
        | some v => if !v.isEmpty then [v] else []
        | none => []
      | none => []
    fromEl ++ fromAttr)).flatten

/-- The diagnostics pushed by `enclosureRules`: per item, E009 (or the
enclosure checks plus W043/E030), E022 for both `installationType`
locations, and the delta container checks. -/
def enclosureRulesEmit (doc : XmlDocument) : List Diagnostic :=
  match doc.root with
  | none => []
  | some root =>
    if root.name ≠ "rss" then []
    else
      match childElement root "channel" with
      | none => []
      | some channel =>
        let items := childElements channel "item"
        let feedVersions := feedVersionsOf items
        (items.map (fun item =>
          let enclosure := childElement item "enclosure"
          let link := childElement item "link"
          let informationalUpdate := sparkleChildElement item "informationalUpdate"
          if enclosure.isNone && link.isNone && informationalUpdate.isNone then
            [{ id := "E009", severity := .error,
               message := "Item has neither <enclosure> with url nor <link>",
               line := some item.line, column := some item.column,
               path := some (elementPath [root, channel] item),
               fix := some "Add an <enclosure url=\"...\" length=\"...\" type=\"...\"/> or <link> element" }]
          else
            let enclosurePart :=
              match enclosure with
              | some enc =>
                let base := validateEnclosureEmit [root, channel, item] enc
                let osPart :=
                  match sparkleAttr enc "os" with
                  | some os =>
                    if !os.isEmpty then
                      [{ id := "W043", severity := .warning,
                         message := "sparkle:os attribute is deprecated; prefer using separate appcast feeds per platform",
                         line := some enc.line, column := some enc.column,
                         path := some (elementPath [root, channel, item] enc),
                         fix := some "Create separate appcast.xml files for each platform instead of using sparkle:os" }] ++
                      (if !(VALID_OS_VALUES.contains (strToLower os)) then
                        [{ id := "E030", severity := .error,
                           message := "Invalid sparkle:os value \"" ++ os ++
                             "\"; must be \"macos\" or \"windows\"",
                           line := some enc.line, column := some enc.column,
                           path := some (elementPath [root, channel, item] enc),
                           fix := some "Set sparkle:os to \"macos\" or \"windows\"" }]
                      else [])
                    else []
                  | none => []
                base ++ osPart
              | none => []
            let e022El :=
              match sparkleChildElement item "installationType" with
              | some instEl =>
                let val := (jsTrim (textContent instEl))
                if !(VALID_INSTALLATION_TYPES.contains val) then
                  [{ id := "E022", severity := .error,
                     message := "Invalid sparkle:installationType \"" ++ val ++
                       "\"; must be \"application\" or \"package\"",
                     line := some instEl.line, column := some instEl.column,
                     path := some (elementPath [root, channel, item] instEl),
                     fix := some "Set installationType to \"application\" or \"package\"" }]
                else []
              | none => []
            let e022Attr :=
              match enclosure with
              | some enc =>
                match sparkleAttr enc "installationType" with
                | some instType =>
                  if !instType.isEmpty && !(VALID_INSTALLATION_TYPES.contains instType) then
                    [{ id := "E022", severity := .error,
                       message := "Invalid sparkle:installationType \"" ++ instType ++
                         "\" on enclosure; must be \"application\" or \"package\"",
                       line := some enc.line, column := some enc.column,
                       path := some (elementPath [root, channel, item] enc),
                       fix := some "Set installationType to \"application\" or \"package\"" }]
                  else []
                | none => []
              | none => []
            let deltasPart :=
              match sparkleChildElement item "deltas" with
              | some deltasEl =>
                validateDeltasEmit [root, channel, item] deltasEl feedVersions
              | none => []
            enclosurePart ++ e022El ++ e022Attr ++ deltasPart)).flatten

/-- `enclosureRules` in sink-passing form. -/
def enclosureRules (doc : XmlDocument) (ds : List Diagnostic) : List Diagnostic :=
  ds ++ enclosureRulesEmit doc

/-! ### `src/core/rules/dates.ts` -/

/-- `new Date("2001-01-01T00:00:00Z").getTime()`. -/
def EARLIEST_REASONABLE_DATE_MS : Int := 978307200000

/-- One day of clock-skew grace, in milliseconds. -/
def FUTURE_GRACE_MS : Int := 86400000

/-- The diagnostics pushed by `dateRules`: per item W003/W004/W025/W026,
then the W018 descending-order check. -/
def dateRulesEmit (ext : Ext) (doc : XmlDocument) : List Diagnostic :=
  match doc.root with
  | none => []
  | some root =>
    if root.name ≠ "rss" then []
    else
      match childElement root "channel" with
      | none => []
      | some channel =>
        let items := childElements channel "item"
        let scans : List (List Diagnostic × Option (XmlNode × JsDate)) :=
          items.map (fun item =>
          match childElement item "pubDate" with
          | none =>
            let d : List Diagnostic :=
              [{ id := "W003", severity := .warning,
                 message := "Item is missing <pubDate>",
                 line := some item.line, column := some item.column,
                 path := some (elementPath [root, channel] item),
                 fix := some "Add a <pubDate> element with an RFC 2822 date (e.g., Thu, 13 Jul 2023 14:30:00 -0700)" }]
            (d, none)
          | some pubDateEl =>
            let dateStr := (jsTrim (textContent pubDateEl))
            if dateStr.isEmpty then
              let d : List Diagnostic :=
                [{ id := "W003", severity := .warning,
                   message := "Item has empty <pubDate>",
                   line := some pubDateEl.line, column := some pubDateEl.column,
                   path := some (elementPath [root, channel, item] pubDateEl),
                   fix := some "Set the <pubDate> content to an RFC 2822 date" }]
              (d, none)
            else
              match parseRfc2822Date ext dateStr with
              | none =>
                let d : List Diagnostic :=
                  [{ id := "W004", severity := .warning,
                     message := "<pubDate> \"" ++ dateStr ++ "\" is not in RFC 2822 format",
                     line := some pubDateEl.line, column := some pubDateEl.column,
                     path := some (elementPath [root, channel, item] pubDateEl),
                     fix := some "Use RFC 2822 format: Day, DD Mon YYYY HH:MM:SS +ZZZZ (e.g., Thu, 13 Jul 2023 14:30:00 -0700)" }]
                (d, none)
              | some parsedDate =>
                let w025 :=
                  if parsedDate.time > ext.nowMs + FUTURE_GRACE_MS then
                    [{ id := "W025", severity := .warning,
                       message := "<pubDate> \"" ++ dateStr ++ "\" is in the future",
                       line := some pubDateEl.line, column := some pubDateEl.column,
                       path := some (elementPath [root, channel, item] pubDateEl),
                       fix := some "Set the publication date to when the release was actually published" }]
                  else []
                let w026 :=
                  if parsedDate.time < EARLIEST_REASONABLE_DATE_MS then
                    [{ id := "W026", severity := .warning,
                       message := "<pubDate> \"" ++ dateStr ++ "\" (year " ++
                         toString parsedDate.year ++ ") is implausibly old for a macOS app update",
                       line := some pubDateEl.line, column := some pubDateEl.column,
                       path := some (elementPath [root, channel, item] pubDateEl),
                       fix := some "Verify the publication date is correct" }]
                  else []
                (w025 ++ w026, some (item, parsedDate)))
        let perItem := (scans.map (fun s => s.1)).flatten
        let dates := scans.filterMap (fun s => s.2)
        let w018 :=
          if dates.length ≥ 2 &&
              (dates.zip (dates.drop 1)).any (fun pc => pc.2.2.time > pc.1.2.time) then
            match items.head? with
            | some first =>
              [{ id := "W018", severity := .warning,
                 message := "Items are not sorted by pubDate in descending order (newest first)",
                 line := some first.line, column := some first.column,
                 path := some (elementPath [root, channel] first),
                 fix := some "Sort <item> elements so the newest release appears first" }]
            | none => []  -- unreachable: dates nonempty implies items nonempty
          else []
        perItem ++ w018

/-- `dateRules` in sink-passing form. -/
def dateRules (ext : Ext) (doc : XmlDocument) (ds : List Diagnostic) : List Diagnostic :=
  ds ++ dateRulesEmit ext doc

/-! ### `src/core/rules/urls.ts` (the revision with W030/W035) -/

def EXPECTED_DOWNLOAD_EXTENSIONS : List String :=
  [".zip", ".dmg", ".pkg", ".app", ".tar", ".tar.gz", ".tgz", ".tar.bz2",
   ".tbz", ".xz", ".7z"]

def SUSPICIOUS_EXTENSIONS : List String :=
  [".html", ".htm", ".jpg", ".jpeg", ".png", ".gif", ".css", ".js"]

/-- `getUrlExtension`: the lowercased extension of the URL's pathname. -/
def getUrlExtension (ext : Ext) (url : String) : Option String :=
  match ext.urlParse url with
  | none => none
  | some u =>
    let pathname := u.pathname
    match lastIndexOfChar '.' pathname with
    | none => none
    | some lastDot =>
      if lastDot = pathname.length - 1 then none
      else some ((strToLower (pathname.drop lastDot)))

/-- The characters of the `W016` regex class `[{}|\^` `[\]<> ]`. -/
def unencodedUrlChars : List Char :=
  ['{', '}', '|', '\\', '^', Char.ofNat 96, '[', ']', '<', '>', ' ']

/-- `validateUrl` from `urls.ts`: an invalid-URL error with the given id,
otherwise W016 when the URL contains characters that need percent-encoding. -/
def validateUrlEmit (ext : Ext) (url : String) (errorId : String)
    (context : String) (chain : List XmlNode) (element : XmlNode) : List Diagnostic :=
  if !(isValidUrl ext url) then
    [{ id := errorId, severity := .error,
       message := "Invalid URL in " ++ context ++ ": \"" ++ url ++ "\"",
       line := some element.line, column := some element.column,
       path := some (elementPath chain element),
       fix := some "Use a valid absolute URL with https:// or http:// scheme" }]
  else if url.data.any (fun c => unencodedUrlChars.contains c) then
    [{ id := "W016", severity := .warning,
       message := "URL in " ++ context ++ " contains unencoded special characters: \"" ++
         url ++ "\"",
       line := some element.line, column := some element.column,
       path := some (elementPath chain element),
       fix := some "Percent-encode special characters in the URL" }]
  else []

/-- `trackProtocol`: which bucket (http/https) a URL's element lands in (the
element is recorded together with its path chain for the later W035 pass). -/
def trackProtocol (ext : Ext) (url : String) (chain : List XmlNode)
    (element : XmlNode) : List (XmlNode × List XmlNode) × List (XmlNode × List XmlNode) :=
  match ext.urlParse url with
  | none => ([], [])
  | some u =>
    if u.protocol = "http:" then ([(element, chain)], [])
    else if u.protocol = "https:" then ([], [(element, chain)])
    else ([], [])

/-- The W030 suspicious-extension diagnostic for a (delta) enclosure URL. -/
def w030Emit (ext : Ext) (url : String) (isDelta : Bool)
    (chain : List XmlNode) (element : XmlNode) : List Diagnostic :=
  match getUrlExtension ext url with
  | some e =>
    if SUSPICIOUS_EXTENSIONS.contains e then
      [{ id := "W030", severity := .warning,
         message := (if isDelta then "Delta enclosure URL" else "Enclosure URL") ++
           " has suspicious extension \"" ++ e ++ "\" for a download file",
         line := some element.line, column := some element.column,
         path := some (elementPath chain element),
         fix := some ("Download URLs should typically end with " ++
           String.intercalate ", " (EXPECTED_DOWNLOAD_EXTENSIONS.take 3) ++ ", etc.") }]
    else []
  | none => []

/-- One URL-check site: diagnostics plus the protocol buckets it adds. -/
structure UrlScan where
  diags : List Diagnostic
  http : List (XmlNode × List XmlNode)
  https : List (XmlNode × List XmlNode)

instance : Append UrlScan :=
  ⟨fun a b => ⟨a.diags ++ b.diags, a.http ++ b.http, a.https ++ b.https⟩⟩

def UrlScan.empty : UrlScan := ⟨[], [], []⟩

/-- Scan of one `urlRules` call site: `validateUrl` plus protocol tracking
(plus W030 for enclosure-like sites). -/
def urlSite (ext : Ext) (url : String) (errorId context : String)
    (chain : List XmlNode) (element : XmlNode) (w030 : Option Bool) : UrlScan :=
  let tracked := trackProtocol ext url chain element
  { diags := validateUrlEmit ext url errorId context chain element ++
      (match w030 with
       | some isDelta => w030Emit ext url isDelta chain element
       | none => []),
    http := tracked.1, https := tracked.2 }

/-- The diagnostics pushed by `urlRules` (the project's current revision):
E014–E018/W016 per URL site, W030 for enclosure-style URLs, then W035 when
the feed mixes HTTP and HTTPS. -/
def urlRulesEmit (ext : Ext) (doc : XmlDocument) : List Diagnostic :=
  match doc.root with
  | none => []
  | some root =>
    if root.name ≠ "rss" then []
    else
      match childElement root "channel" with
      | none => []
      | some channel =>
        let items := childElements channel "item"
        let itemScans := items.map (fun item =>
          let encScan :=
            match childElement item "enclosure" with
            | some enclosure =>
              match attr enclosure "url" with
              | some url =>
                if !url.isEmpty then
                  urlSite ext url "E014" "enclosure url" [root, channel, item]
                    enclosure (some false)
                else UrlScan.empty
              | none => UrlScan.empty
            | none => UrlScan.empty
          let linkScan :=
            match childElement item "link" with
            | some link =>
              let url := (jsTrim (textContent link))
              if !url.isEmpty then
                urlSite ext url "E015" "item <link>" [root, channel, item] link none
              else UrlScan.empty
            | none => UrlScan.empty
          let rnScan :=
            match sparkleChildElement item "releaseNotesLink" with
            | some rnLink =>
              let url := (jsTrim (textContent rnLink))
              if !url.isEmpty then
                urlSite ext url "E016" "sparkle:releaseNotesLink" [root, channel, item]
                  rnLink none
              else UrlScan.empty
            | none => UrlScan.empty
          let frnScan :=
            match sparkleChildElement item "fullReleaseNotesLink" with
            | some frnLink =>
              let url := (jsTrim (textContent frnLink))
              if !url.isEmpty then
                urlSite ext url "E017" "sparkle:fullReleaseNotesLink" [root, channel, item]
                  frnLink none
              else UrlScan.empty
            | none => UrlScan.empty
          let deltaScan :=
            match sparkleChildElement item "deltas" with
            | some deltasEl =>
              ((childElements deltasEl "enclosure").map (fun deltaEnc =>
                match attr deltaEnc "url" with
                | some url =>
                  if !url.isEmpty then
                    urlSite ext url "E018" "delta enclosure url"
                      [root, channel, item, deltasEl] deltaEnc (some true)
                  else UrlScan.empty
                | none => UrlScan.empty)).foldl (· ++ ·) UrlScan.empty
            | none => UrlScan.empty
          encScan ++ linkScan ++ rnScan ++ frnScan ++ deltaScan)
        let itemsScan := itemScans.foldl (· ++ ·) UrlScan.empty
        let channelLinkScan :=
          match childElement channel "link" with
          | some channelLink =>
            let url := (jsTrim (textContent channelLink))
            if !url.isEmpty then
              urlSite ext url "E015" "channel <link>" [root, channel] channelLink none
            else UrlScan.empty
          | none => UrlScan.empty
        let full := itemsScan ++ channelLinkScan
        let w035 :=
          if !full.http.isEmpty && !full.https.isEmpty then
            full.http.map (fun ec =>
              { id := "W035", severity := .warning,
                message := "Feed mixes HTTP and HTTPS URLs; consider using HTTPS consistently",
                line := some ec.1.line, column := some ec.1.column,
                path := some (elementPath ec.2 ec.1),
                fix := some "Use HTTPS for all URLs for consistent security" })
          else []
        full.diags ++ w035

/-- `urlRules` in sink-passing form. -/
def urlRules (ext : Ext) (doc : XmlDocument) (ds : List Diagnostic) : List Diagnostic :=
  ds ++ urlRulesEmit ext doc

/-! ### `src/core/rules/system-requirements.ts` -/

/-- JavaScript `Number(s)` restricted to the shapes this module feeds it
(`""` is `0`, digit runs are their value, anything else is `NaN`, modelled
as `none`). -/
def jsNumber (s : String) : Option Int :=
  let t := (jsTrim s)
  if t.isEmpty then some 0
  else if isDigitRun t then some (digitsToNat t) else none

/-- `a < b` where either side may be `NaN` (every comparison with `NaN` is
false). -/
def optLt (a b : Option Int) : Bool :=
  match a, b with
  | some x, some y => x < y
  | _, _ => false

/-- The index loop of the module-local `compareVersions`
(`aParts[i] ?? 0` pads missing components; `NaN` components compare equal). -/
def sysCmpAux : Nat → List (Option Int) → List (Option Int) → Int
  | 0, _, _ => 0
  | n + 1, as, bs =>
    let aN := (as.head?).getD (some 0)
    let bN := (bs.head?).getD (some 0)
    if optLt aN bN then -1
    else if optLt bN aN then 1
    else sysCmpAux n as.tail bs.tail

/-- `compareVersions` from `system-requirements.ts` (`split(".").map(Number)`). -/
def compareSysVersions (a b : String) : Int :=
  let aParts := (splitOnChar '.' a).map jsNumber
  let bParts := (splitOnChar '.' b).map jsNumber
  sysCmpAux (max aParts.length bParts.length) aParts bParts

/-- The diagnostics pushed by `systemRequirementRules` (the revision present
in this snapshot; its W011–W013 ids predate the enclosure module's reuse of
W011/W012). -/
def systemRequirementRulesEmit (doc : XmlDocument) : List Diagnostic :=
  match doc.root with
  | none => []
  | some root =>
    if root.name ≠ "rss" then []
    else
      match childElement root "channel" with
      | none => []
      | some channel =>
        let items := childElements channel "item"
        (items.map (fun item =>
          let minVerEl := sparkleChildElement item "minimumSystemVersion"
          let maxVerEl := sparkleChildElement item "maximumSystemVersion"
          let minVer := minVerEl.map (fun e => (jsTrim (textContent e)))
          let maxVer := maxVerEl.map (fun e => (jsTrim (textContent e)))
          let w011 :=
            match minVerEl, minVer with
            | some el, some v =>
              if !v.isEmpty && !(macosVersionTest v) then
                [{ id := "W011", severity := .warning,
                   message := "minimumSystemVersion \"" ++ v ++
                     "\" is not a valid macOS version format",
                   line := some el.line, column := some el.column,
                   path := some (elementPath [root, channel, item] el),
                   fix := some "Use a version format like 10.13, 11.0, or 14.0" }]
              else []
            | _, _ => []
          let w012 :=
            match maxVerEl, maxVer with
            | some el, some v =>
              if !v.isEmpty && !(macosVersionTest v) then
                [{ id := "W012", severity := .warning,
                   message := "maximumSystemVersion \"" ++ v ++
                     "\" is not a valid macOS version format",
                   line := some el.line, column := some el.column,
                   path := some (elementPath [root, channel, item] el),
                   fix := some "Use a version format like 10.13, 11.0, or 14.0" }]
              else []
            | _, _ => []
          let w013 :=
            if jsTruthy minVer && jsTruthy maxVer &&
                macosVersionTest (jsOrEmpty minVer) && macosVersionTest (jsOrEmpty maxVer) &&
                compareSysVersions (jsOrEmpty minVer) (jsOrEmpty maxVer) > 0 then
              match minVerEl with
              | some el =>
                [{ id := "W013", severity := .warning,
                   message := "minimumSystemVersion (" ++ jsOrEmpty minVer ++
                     ") is greater than maximumSystemVersion (" ++ jsOrEmpty maxVer ++ ")",
                   line := some el.line, column := some el.column,
                   path := some (elementPath [root, channel, item] el),
                   fix := some "Swap the values or correct the version requirements" }]
              | none => []  -- unreachable: a truthy minVer implies the element
            else []
          w011 ++ w012 ++ w013)).flatten

/-- `systemRequirementRules` in sink-passing form. -/
def systemRequirementRules (doc : XmlDocument) (ds : List Diagnostic) : List Diagnostic :=
  ds ++ systemRequirementRulesEmit doc

/-! ### `src/core/rules/release-notes.ts` -/

/-- The diagnostics pushed by `releaseNotesRules` (W009). -/
def releaseNotesRulesEmit (doc : XmlDocument) : List Diagnostic :=
  match doc.root with
  | none => []
  | some root =>
    if root.name ≠ "rss" then []
    else
      match childElement root "channel" with
      | none => []
      | some channel =>
        let items := childElements channel "item"
        (items.map (fun item =>
          let description := childElement item "description"
          let releaseNotesLink := sparkleChildElement item "releaseNotesLink"
          let fullReleaseNotesLink := sparkleChildElement item "fullReleaseNotesLink"
          let hasDescription :=
            match description with
            | some e => (jsTrim (textContent e)).length > 0
            | none => false
          let hasReleaseNotesLink :=
            match releaseNotesLink with
            | some e => (jsTrim (textContent e)).length > 0
            | none => false
          let hasFullReleaseNotesLink :=
            match fullReleaseNotesLink with
            | some e => (jsTrim (textContent e)).length > 0
            | none => false
          if !hasDescription && !hasReleaseNotesLink && !hasFullReleaseNotesLink then
            [{ id := "W009", severity := .warning,
               message := "Item has no release notes (no <description>, <sparkle:releaseNotesLink>, or <sparkle:fullReleaseNotesLink>)",
               line := some item.line, column := some item.column,
               path := some (elementPath [root, channel] item),
               fix := some "Add a <description> with HTML release notes or a <sparkle:releaseNotesLink> URL" }]
          else [])).flatten

/-- `releaseNotesRules` in sink-passing form. -/
def releaseNotesRules (doc : XmlDocument) (ds : List Diagnostic) : List Diagnostic :=
  ds ++ releaseNotesRulesEmit doc

/-! ### `src/core/rules/channels.ts` -/

/-- The channel-name regex `^[a-zA-Z0-9][a-zA-Z0-9._-]*$`. -/
def validChannelTest (s : String) : Bool :=
  match s.data with
  | [] => false
  | c :: rest =>
    (c.isAlpha || c.isDigit) &&
      rest.all (fun x => x.isAlpha || x.isDigit || x = '.' || x = '_' || x = '-')

/-- The diagnostics pushed by `channelRules` (E019). -/
def channelRulesEmit (doc : XmlDocument) : List Diagnostic :=
  match doc.root with
  | none => []
  | some root =>
    if root.name ≠ "rss" then []
    else
      match childElement root "channel" with
      | none => []
      | some channel =>
        let items := childElements channel "item"
        (items.map (fun item =>
          match sparkleChildElement item "channel" with
          | none => []
          | some channelEl =>
            let channelName := (jsTrim (textContent channelEl))
            if channelName.isEmpty then []
            else if !(validChannelTest channelName) then
              [{ id := "E019", severity := .error,
                 message := "Invalid sparkle:channel name \"" ++ channelName ++
                   "\"; must contain only alphanumeric characters, hyphens, underscores, or dots",
                 line := some channelEl.line, column := some channelEl.column,
                 path := some (elementPath [root, channel, item] channelEl),
                 fix := some "Use a simple identifier like 'beta', 'nightly', or 'release-candidate'" }]
            else [])).flatten

/-- `channelRules` in sink-passing form. -/
def channelRules (doc : XmlDocument) (ds : List Diagnostic) : List Diagnostic :=
  ds ++ channelRulesEmit doc

/-! ### `src/core/rules/rollout.ts` -/

/-- The diagnostics pushed by `rolloutRules` (E020, E021). -/
def rolloutRulesEmit (doc : XmlDocument) : List Diagnostic :=
  match doc.root with
  | none => []
  | some root =>
    if root.name ≠ "rss" then []
    else
      match childElement root "channel" with
      | none => []
      | some channel =>
        let items := childElements channel "item"
        (items.map (fun item =>
          match sparkleChildElement item "phasedRolloutInterval" with
          | none => []
          | some rolloutEl =>
            let value := (jsTrim (textContent rolloutEl))
            let e020 :=
              if !(isNonNegativeInteger value) then
                [{ id := "E020", severity := .error,
                   message := "sparkle:phasedRolloutInterval \"" ++ value ++
                     "\" is not a valid non-negative integer",
                   line := some rolloutEl.line, column := some rolloutEl.column,
                   path := some (elementPath [root, channel, item] rolloutEl),
                   fix := some "Set to an integer representing seconds (e.g., 86400 for 1 day)" }]
              else []
            let pubDateOk :=
              match childElement item "pubDate" with
              | some pubDateEl => !((jsTrim (textContent pubDateEl)).isEmpty)
              | none => false
            let e021 :=
              if !pubDateOk then
                [{ id := "E021", severity := .error,
                   message := "Phased rollout requires a <pubDate> on the item",
                   line := some rolloutEl.line, column := some rolloutEl.column,
                   path := some (elementPath [root, channel, item] rolloutEl),
                   fix := some "Add a <pubDate> element to this item" }]
              else []
            e020 ++ e021)).flatten

/-- `rolloutRules` in sink-passing form. -/
def rolloutRules (doc : XmlDocument) (ds : List Diagnostic) : List Diagnostic :=
  ds ++ rolloutRulesEmit doc

/-! ### `src/core/rules/best-practices.ts` -/

/-- The diagnostics pushed by `bestPracticeRules` (W001, W014, W002, W017). -/
def bestPracticeRulesEmit (doc : XmlDocument) : List Diagnostic :=
  match doc.root with
  | none => []
  | some root =>
    if root.name ≠ "rss" then []
    else
      match childElement root "channel" with
      | none => []
      | some channel =>
        let w001 :=
          if (match childElement channel "title" with
              | some e => (jsTrim (textContent e)).isEmpty
              | none => true) then
            [{ id := "W001", severity := .warning,
               message := "Channel is missing a <title> element",
               line := some channel.line, column := some channel.column,
               path := some (elementPath [root] channel),
               fix := some "Add a <title> element with your app name" }]
          else []
        let w014 :=
          if (match childElement channel "link" with
              | some e => (jsTrim (textContent e)).isEmpty
              | none => true) then
            [{ id := "W014", severity := .warning,
               message := "Channel is missing a <link> element",
               line := some channel.line, column := some channel.column,
               path := some (elementPath [root] channel),
               fix := some "Add a <link> element with your app's homepage URL" }]
          else []
        let items := childElements channel "item"
        let perItem := (items.map (fun item =>
          let w002 :=
            if (match childElement item "title" with
                | some e => (jsTrim (textContent e)).isEmpty
                | none => true) then
              [{ id := "W002", severity := .warning,
                 message := "Item is missing a <title> element",
                 line := some item.line, column := some item.column,
                 path := some (elementPath [root, channel] item),
                 fix := some "Add a <title> element (e.g., 'Version 2.0')" }]
            else []
          let w017 :=
            match sparkleChildElement item "informationalUpdate",
                childElement item "enclosure" with
            | some informationalUpdate, some _ =>
              [{ id := "W017", severity := .warning,
                 message := "Item has both <sparkle:informationalUpdate> and <enclosure>; informational updates typically should not include a download",
                 line := some informationalUpdate.line,
                 column := some informationalUpdate.column,
                 path := some (elementPath [root, channel, item] informationalUpdate),
                 fix := some "Remove <enclosure> if this is purely informational, or remove <sparkle:informationalUpdate> if a download is intended" }]
            | _, _ => []
          w002 ++ w017)).flatten
        w001 ++ w014 ++ perItem

/-- `bestPracticeRules` in sink-passing form. -/
def bestPracticeRules (doc : XmlDocument) (ds : List Diagnostic) : List Diagnostic :=
  ds ++ bestPracticeRulesEmit doc

/-! ### `src/core/rules/info.ts` -/

def KNOWN_ARCHITECTURES : List String :=
  ["arm64", "x86_64", "x86-64", "amd64", "i386", "i686", "universal",
   "apple-silicon", "intel"]

/-- Is `sub` a contiguous infix of `l`? -/
def isInfixOfChars (sub : List Char) : List Char → Bool
  | [] => sub.isEmpty
  | x :: xs => sub.isPrefixOf (x :: xs) || isInfixOfChars sub xs

/-- JavaScript substring containment `s.includes(sub)`. -/
def strIncludes (s sub : String) : Bool :=
  isInfixOfChars sub.data s.data

/-- `requirements.split(/[,\s]+/)`, up to empty pieces: splitting on every
single comma/whitespace character.  The source immediately filters out empty
pieces, and after that filter, single-character splitting and the regex's
run splitting agree. -/
def splitOnCommaWs (s : String) : List String :=
  let isSep : Char → Bool := fun c => c = ',' || c.isWhitespace
  let rec go (acc : List Char) : List Char → List String
    | [] => [String.mk acc.reverse]
    | c :: rest =>
      if isSep c then String.mk acc.reverse :: go [] rest
      else go (c :: acc) rest
  go [] s.data

/-- `Math.round(n / d)` for an integer `n` and positive divisor `d`
(round half toward positive infinity: `floor(n/d + 1/2)`). -/
def jsRoundDivInt (n : Int) (d : Nat) : Int :=
  (n + (d : Int) / 2).fdiv d

/-- Insertion-ordered string set (`Set.add`). -/
def setInsert (s : List String) (v : String) : List String :=
  if s.contains v then s else s ++ [v]

/-- Stable JavaScript default `Array.sort()` on strings (lexicographic). -/
def insertStableStr (a : String) : List String → List String
  | [] => [a]
  | b :: bs => if b ≤ a then b :: insertStableStr a bs else a :: b :: bs

def sortStrings (l : List String) : List String :=
  l.foldl (fun acc x => insertStableStr x acc) []

/-- The diagnostics pushed by `infoRules` (I001–I009 and W036). -/
def infoRulesEmit (doc : XmlDocument) : List Diagnostic :=
  match doc.root with
  | none => []
  | some root =>
    if root.name ≠ "rss" then []
    else
      match childElement root "channel" with
      | none => []
      | some channel =>
        let items := childElements channel "item"
        let channelNames := items.foldl (fun s item =>
          match sparkleChildElement item "channel" with
          | some channelEl =>
            let nm := (jsTrim (textContent channelEl))
            if !nm.isEmpty then setInsert s nm else s
          | none => s) []
        let minOsVersions := items.foldl (fun s item =>
          match sparkleChildElement item "minimumSystemVersion" with
          | some e =>
            let v := (jsTrim (textContent e))
            if !v.isEmpty then setInsert s v else s
          | none => s) []
        let maxOsVersions := items.foldl (fun s item =>
          match sparkleChildElement item "maximumSystemVersion" with
          | some e =>
            let v := (jsTrim (textContent e))
            if !v.isEmpty then setInsert s v else s
          | none => s) []
        let perItem := (items.map (fun item =>
          let i002 :=
            match sparkleChildElement item "deltas" with
            | some deltasEl =>
              let deltaCount := (childElements deltasEl "enclosure").length
              if deltaCount > 0 then
                [{ id := "I002", severity := .info,
                   message := "Item contains " ++ toString deltaCount ++
                     " delta update" ++ (if deltaCount > 1 then "s" else ""),
                   line := some deltasEl.line, column := some deltasEl.column,
                   path := some (elementPath [root, channel, item] deltasEl) }]
              else []
            | none => []
          let i003 :=
            match sparkleChildElement item "phasedRolloutInterval" with
            | some rolloutEl =>
              let interval := (jsTrim (textContent rolloutEl))
              let days : Option Int :=
                if !interval.isEmpty then
                  (jsParseInt interval).map (fun t => jsRoundDivInt t 86400)
                else some 0
              let daysPos : Bool := match days with
                | some d => decide (d > 0)
                | none => false
              let daysMany : Bool := match days with
                | some d => decide (d > 1)
                | none => false
              [{ id := "I003", severity := .info,
                 message := "Item uses phased rollout" ++
                   (if daysPos then
                     " over ~" ++ toString ((days).getD 0) ++ " day" ++
                       (if daysMany then "s" else "")
                   else ""),
                 line := some rolloutEl.line, column := some rolloutEl.column,
                 path := some (elementPath [root, channel, item] rolloutEl) }]
            | none => []
          let i004 :=
            match sparkleChildElement item "criticalUpdate" with
            | some criticalEl =>
              [{ id := "I004", severity := .info,
                 message := "Item is marked as a critical update",
                 line := some criticalEl.line, column := some criticalEl.column,
                 path := some (elementPath [root, channel, item] criticalEl) }]
            | none => []
          let i005 :=
            match childElement item "enclosure" with
            | some enclosure =>
              match sparkleAttr enclosure "os" with
              | some os =>
                if !os.isEmpty && strToLower os ≠ "macos" then
                  [{ id := "I005", severity := .info,
                     message := "Item targets non-macOS platform: \"" ++ os ++ "\"",
                     line := some enclosure.line, column := some enclosure.column,
                     path := some (elementPath [root, channel, item] enclosure) }]
                else []
              | none => []
            | none => []
          let i006w036 :=
            match sparkleChildElement item "hardwareRequirements" with
            | some hardwareEl =>
              let requirements := (jsTrim (textContent hardwareEl))
              let i006 :=
                [{ id := "I006", severity := .info,
                   message := "Item requires specific hardware: \"" ++ requirements ++ "\"",
                   line := some hardwareEl.line, column := some hardwareEl.column,
                   path := some (elementPath [root, channel, item] hardwareEl) }]
              let archValues := (splitOnCommaWs requirements).filter
                (fun v => v.length > 0)
              let w036 := (archValues.map (fun arch =>
                let normalizedArch := String.mk ((strToLower arch).data.map
                  (fun c => if c = '_' then '-' else c))
                if !(KNOWN_ARCHITECTURES.any (fun known =>
                    strIncludes normalizedArch known)) then
                  [{ id := "W036", severity := .warning,
                     message := "Unknown hardware architecture \"" ++ arch ++
                       "\" in hardwareRequirements",
                     line := some hardwareEl.line, column := some hardwareEl.column,
                     path := some (elementPath [root, channel, item] hardwareEl),
                     fix := some ("Expected values like: " ++
                       String.intercalate ", " (KNOWN_ARCHITECTURES.take 4)) }]
                else [])).flatten
              i006 ++ w036
            | none => []
          let i007 :=
            match sparkleChildElement item "minimumUpdateVersion" with
            | some minUpdateEl =>
              let minVersion := (jsTrim (textContent minUpdateEl))
              [{ id := "I007", severity := .info,
                 message := "Item requires app version " ++ minVersion ++
                   " or later to update",
                 line := some minUpdateEl.line, column := some minUpdateEl.column,
                 path := some (elementPath [root, channel, item] minUpdateEl) }]
            | none => []
          i002 ++ i003 ++ i004 ++ i005 ++ i006w036 ++ i007)).flatten
        let i001 :=
          if items.length > 0 then
            let size := channelNames.length
            let channelInfo :=
              if size > 0 then
                " across " ++ toString (size + 1) ++ " channel" ++
                  (if size + 1 > 1 then "s" else "") ++ " (default" ++
                  (if size > 0 then ", " ++ String.intercalate ", " channelNames
                   else "") ++ ")"
              else ""
            [{ id := "I001", severity := .info,
               message := "Found " ++ toString items.length ++ " item" ++
                 (if items.length > 1 then "s" else "") ++ channelInfo,
               line := some channel.line, column := some channel.column,
               path := some (elementPath [root] channel) }]
          else []
        let i008 :=
          if items.length > 50 then
            [{ id := "I008", severity := .info,
               message := "Feed contains " ++ toString items.length ++
                 " items; large feeds may cause performance issues",
               line := some channel.line, column := some channel.column,
               path := some (elementPath [root] channel) }]
          else []
        let i009 :=
          if minOsVersions.length > 0 || maxOsVersions.length > 0 then
            let sortedMin := sortStrings minOsVersions
            let sortedMax := sortStrings maxOsVersions
            let osInfoMin :=
              match sortedMin.head? with
              | some first =>
                "minimum: " ++ first ++
                  (if sortedMin.length > 1 then
                    " to " ++ (sortedMin.getLast? |>.getD "") else "")
              | none => ""
            let osInfo :=
              match sortedMax.head? with
              | some first =>
                (if !osInfoMin.isEmpty then osInfoMin ++ ", " else osInfoMin) ++
                  "maximum: " ++ first ++
                  (if sortedMax.length > 1 then
                    " to " ++ (sortedMax.getLast? |>.getD "") else "")
              | none => osInfoMin
            [{ id := "I009", severity := .info,
               message := "OS version requirements across items: " ++ osInfo,
               line := some channel.line, column := some channel.column,
               path := some (elementPath [root] channel) }]
          else []
        perItem ++ i001 ++ i008 ++ i009

/-- `infoRules` in sink-passing form. -/
def infoRules (doc : XmlDocument) (ds : List Diagnostic) : List Diagnostic :=
  ds ++ infoRulesEmit doc

/-! ### `src/core/rules/xml-format.ts`

These rules scan the raw XML text with regular expressions; the three CDATA
patterns and the XML-declaration pattern are embedded as deterministic
scanners (each alternation/option in them is decided by the next character). -/

/-- Case-insensitive literal match at the head of `cs`; returns the rest. -/
def eatLitCI (lit : String) (cs : List Char) : Option (List Char) :=
  if (cs.take lit.length).map Char.toLower = lit.data.map Char.toLower then
    some (cs.drop lit.length)
  else none

/-- `\s*`. -/
def eatWsStar (cs : List Char) : List Char := cs.dropWhile Char.isWhitespace

/-- `["']`. -/
def eatQuote (cs : List Char) : Option (List Char) :=
  match cs with
  | '"' :: rest => some rest
  | '\'' :: rest => some rest
  | _ => none

/-- Matcher for `/<sparkle:version[^>]*>\s*<!\[CDATA\[/i` at the head of
`cs`; returns the match length. -/
def matchVersionElCdata (cs : List Char) : Option Nat :=
  match eatLitCI "<sparkle:version" cs with
  | none => none
  | some r1 =>
    let body := r1.takeWhile (fun c => c ≠ '>')
    match r1.drop body.length with
    | '>' :: r2 =>
      let ws := r2.takeWhile Char.isWhitespace
      match eatLitCI "<![CDATA[" (r2.drop ws.length) with
      | some _ => some (16 + body.length + 1 + ws.length + 9)
      | none => none
    | _ => none

/-- Matcher for `/sparkle:version\s*=\s*["']\s*<!\[CDATA\[/i`. -/
def matchVersionAttrCdata (cs : List Char) : Option Nat :=
  match eatLitCI "sparkle:version" cs with
  | none => none
  | some r1 =>
    let ws1 := r1.takeWhile Char.isWhitespace
    match r1.drop ws1.length with
    | '=' :: r2 =>
      let ws2 := r2.takeWhile Char.isWhitespace
      match eatQuote (r2.drop ws2.length) with
      | some r3 =>
        let ws3 := r3.takeWhile Char.isWhitespace
        match eatLitCI "<![CDATA[" (r3.drop ws3.length) with
        | some _ => some (15 + ws1.length + 1 + ws2.length + 1 + ws3.length + 9)
        | none => none
      | none => none
    | _ => none

/-- Matcher for `/sparkle:(ed|dsa)Signature\s*=\s*["']\s*<!\[CDATA\[/i`. -/
def matchSigAttrCdata (cs : List Char) : Option Nat :=
  match eatLitCI "sparkle:" cs with
  | none => none
  | some r0 =>
    let algLen : Option Nat :=
      match eatLitCI "ed" r0 with
      | some _ => some 2
      | none =>
        match eatLitCI "dsa" r0 with
        | some _ => some 3
        | none => none
    match algLen with
    | none => none
    | some al =>
      match eatLitCI "Signature" (r0.drop al) with
      | none => none
      | some r1 =>
        let ws1 := r1.takeWhile Char.isWhitespace
        match r1.drop ws1.length with
        | '=' :: r2 =>
          let ws2 := r2.takeWhile Char.isWhitespace
          match eatQuote (r2.drop ws2.length) with
          | some r3 =>
            let ws3 := r3.takeWhile Char.isWhitespace
            match eatLitCI "<![CDATA[" (r3.drop ws3.length) with
            | some _ =>
              some (8 + al + 9 + ws1.length + 1 + ws2.length + 1 + ws3.length + 9)
            | none => none
          | none => none
        | _ => none

/-- The repeated-`exec` loop of a `/g` regex: find successive
non-overlapping matches left to right, resuming after each match's end.
Returns the match start indices. -/
def scanAux (matchAt : List Char → Option Nat) :
    Nat → List Char → Nat → List Nat
  | 0, _, _ => []
  | _ + 1, [], _ => []
  | fuel + 1, cs, pos =>
    match matchAt cs with
    | some len => pos :: scanAux matchAt fuel (cs.drop len) (pos + len)
    | none => scanAux matchAt fuel cs.tail (pos + 1)

def scanPattern (matchAt : List Char → Option Nat) (s : String) : List Nat :=
  scanAux matchAt s.length s.data 0

/-- `getLineNumber`: `str.substring(0, position).split("\n").length`. -/
def getLineNumber (str : String) (position : Nat) : Nat :=
  ((str.data.take position).filter (fun c => c = '\n')).length + 1

/-- The group captured by `/^<\?xml\s+([^?]*)\?>/i`, when the declaration
pattern matches at the start of the text. -/
def xmlDeclGroup (rawXml : String) : Option String :=
  let cs := rawXml.data
  if (cs.take 5).map Char.toLower = "<?xml".data then
    match cs.drop 5 with
    | c :: _ =>
      if c.isWhitespace then
        let afterWs := (cs.drop 5).dropWhile Char.isWhitespace
        let grp := afterWs.takeWhile (fun x => x ≠ '?')
        match afterWs.drop grp.length with
        | '?' :: '>' :: _ => some (String.mk grp)
        | _ => none
      else none
    | [] => none
  else none

/-- `checkXmlDeclaration`: W039 when the declaration exists but carries no
`encoding=`. -/
def checkXmlDeclarationEmit (rawXml : String) : List Diagnostic :=
  match xmlDeclGroup rawXml with
  | some declaration =>
    if !(strIncludes declaration "encoding=") then
      [{ id := "W039", severity := .warning,
         message := "XML declaration is missing encoding attribute; recommend adding encoding=\"UTF-8\"",
         line := some 1, column := some 1,
         fix := some "<?xml version=\"1.0\" encoding=\"UTF-8\"?>" }]
    else []
  | none => []

/-- `checkCdataInSensitiveElements`: the three W038 scans, in source order. -/
def checkCdataEmit (rawXml : String) : List Diagnostic :=
  let versionEl := (scanPattern matchVersionElCdata rawXml).map (fun idx =>
    { id := "W038", severity := .warning,
      message := "CDATA section used in <sparkle:version>; this may cause parsing issues",
      line := some (getLineNumber rawXml idx), column := some 1,
      fix := some "Use plain text content instead of CDATA for version elements" })
  let versionAttr := (scanPattern matchVersionAttrCdata rawXml).map (fun idx =>
    { id := "W038", severity := .warning,
      message := "CDATA section used in sparkle:version attribute; this may cause parsing issues",
      line := some (getLineNumber rawXml idx), column := some 1,
      fix := some "Use plain text value instead of CDATA for version attributes" })
  let sigAttr := (scanPattern matchSigAttrCdata rawXml).map (fun idx =>
    { id := "W038", severity := .warning,
      message := "CDATA section used in signature attribute; this may cause parsing issues",
      line := some (getLineNumber rawXml idx), column := some 1,
      fix := some "Use plain base64 value instead of CDATA for signature attributes" })
  versionEl ++ versionAttr ++ sigAttr

/-- The diagnostics pushed by `xmlFormatRules` (W039 always checked, W038
only when a root exists). -/
def xmlFormatRulesEmit (doc : XmlDocument) (rawXml : String) : List Diagnostic :=
  checkXmlDeclarationEmit rawXml ++
    (if doc.root.isSome then checkCdataEmit rawXml else [])

/-- `xmlFormatRules` in sink-passing form. -/
def xmlFormatRules (doc : XmlDocument) (ds : List Diagnostic) (rawXml : String) :
    List Diagnostic :=
  ds ++ xmlFormatRulesEmit doc rawXml

/-! ## `src/core/validator.ts` — `validate`

The XML parser (`parseXml`, a thin wrapper over the external saxes library)
is passed in as a function producing a `ParseResult`, exactly the shape the
parser module returns. -/

/-- `ParseResult` from `src/core/parser.ts`. -/
structure ParseResult where
  document : XmlDocument
  diagnostics : List Diagnostic

/-- `allRules` from `src/core/rules/index.ts`, in execution order. -/
def allRules (ext : Ext) : List ValidationRule :=
  [structureRules, versionRules ext, enclosureRules, dateRules ext, urlRules ext,
   systemRequirementRules, releaseNotesRules, channelRules, rolloutRules,
   bestPracticeRules, infoRules]

/-- The fatal structural ids checked by the engine's gate. -/
def FATAL_STRUCTURAL_IDS : List String :=
  ["E002", "E003", "E004", "E005", "E006", "E007"]

/-- The `break` condition evaluated after the first rule: a fatal structural
error was pushed AND the channel or the item list is missing (an E005 or
E007 is present). -/
def structuralGateStops (ds : List Diagnostic) : Bool :=
  ds.any (fun d => d.severity = .error && FATAL_STRUCTURAL_IDS.contains d.id) &&
    (ds.any (fun d => d.id = "E005") || ds.any (fun d => d.id = "E007"))

/-- The rule loop of `validate`: the gate test fires only on the first rule
(the loop guards it with `rule === allRules[0]`, and `structureRules` is only
at position 0). -/
def runRules (ext : Ext) (doc : XmlDocument) (ds0 : List Diagnostic) :
    List Diagnostic :=
  match allRules ext with
  | [] => ds0
  | first :: rest =>
    let ds1 := first doc ds0
    if structuralGateStops ds1 then ds1
    else rest.foldl (fun ds rule => rule doc ds) ds1

/-- `validate` from `src/core/validator.ts`, parameterized by the external
XML parser. -/
def validateWith (ext : Ext) (parseXml : String → ParseResult) (xml : String) :
    ValidationResult :=
  let pr := parseXml xml
  let hasFatalParseError :=
    pr.diagnostics.any (fun d => d.severity = .error) && pr.document.root.isNone
  let afterRules :=
    if !hasFatalParseError then
      xmlFormatRules pr.document (runRules ext pr.document pr.diagnostics) xml
    else pr.diagnostics
  let consolidated := consolidateDiagnostics afterRules
  let sorted := sortDiagnostics consolidated
  let errorCount := (sorted.filter (fun d => d.severity = .error)).length
  let warningCount := (sorted.filter (fun d => d.severity = .warning)).length
  let infoCount := (sorted.filter (fun d => d.severity = .info)).length
  { valid := errorCount == 0,
    diagnostics := sorted,
    errorCount := errorCount,
    warningCount := warningCount,
    infoCount := infoCount }

/-! ## `src/core/remote.ts` — the Remote Verifier

The network `fetch` is modelled as an oracle `String → FetchOut`; whether
`checkUrl` consults it at all is reported alongside its result, so "performs
no network call" is expressible. -/

/-- The fields of a `fetch` `Response` read by `checkUrl`. -/
structure FetchResponse where
  status : Nat
  contentLengthHeader : Option String
  redirected : Bool
  url : String
deriving DecidableEq, Repr

/-- A thrown fetch error, at the granularity `getFetchErrorMessage` reads:
either a JavaScript `Error` (name, message, and — when `cause` is itself an
`Error` — the cause's message and `code`), or a non-`Error` throw rendered
with `String(err)`. -/
inductive FetchErr where
  | errObj (name : String) (message : String)
      (cause : Option (String × Option String))
  | nonError (rendered : String)
deriving DecidableEq, Repr

/-- Outcome of one `fetch` call. -/
inductive FetchOut where
  | ok (resp : FetchResponse)
  | thrown (e : FetchErr)
deriving DecidableEq, Repr

/-- `getFetchErrorMessage` from `remote.ts`. -/
def getFetchErrorMessage (ext : Ext) (err : FetchErr) (url : String) : String :=
  match err with
  | .nonError rendered => rendered
  | .errObj name message cause =>
    if name = "AbortError" then "Request timed out"
    else
      let fromCause : Option String :=
        match cause with
        | none => none
        | some (causeMessage, code) =>
          if code = some "ENOTFOUND" then
            some (match ext.urlParse url with
              | some u => "DNS lookup failed for \"" ++ u.hostname ++ "\""
              | none => "DNS lookup failed")
          else if code = some "ECONNREFUSED" then
            some "Connection refused (no server listening)"
          else if code = some "ECONNRESET" then
            some "Connection reset by server"
          else if code = some "UNABLE_TO_VERIFY_LEAF_SIGNATURE" then
            some "TLS certificate verification failed (untrusted CA)"
          else if code = some "CERT_HAS_EXPIRED" then
            some "TLS certificate has expired"
          else if code = some "ERR_TLS_CERT_ALTNAME_INVALID" then
            some "TLS certificate hostname mismatch"
          else if code = some "DEPTH_ZERO_SELF_SIGNED_CERT" then
            some "TLS certificate is self-signed"
          else if (match code with
                   | some c => strStartsWith c "ERR_TLS" || strStartsWith c "CERT_"
                   | none => false) then
            some ("TLS error: " ++ (code.getD ""))
          else if code = some "ENETUNREACH" then
            some "Network unreachable"
          else if code = some "EHOSTUNREACH" then
            some "Host unreachable"
          else if !causeMessage.isEmpty && causeMessage ≠ "fetch failed" then
            some causeMessage
          else none
      match fromCause with
      | some m => m
      | none =>
        if !message.isEmpty && message ≠ "fetch failed" then message
        else "Network request failed"

/-- Parse of a regex-shaped dotted quad `^(\d+)\.(\d+)\.(\d+)\.(\d+)$`,
with each octet read as a decimal number (`map(Number)`). -/
def ipv4Quad (s : String) : Option (Nat × Nat × Nat × Nat) :=
  match splitOnChar '.' s with
  | [a, b, c, d] =>
    if isDigitRun a && isDigitRun b && isDigitRun c && isDigitRun d then
      some (digitsToNat a, digitsToNat b, digitsToNat c, digitsToNat d)
    else none
  | _ => none

/-- The private-range tests of `isLocalOrPrivateUrl` applied to a matched
dotted quad (only the first two octets are read). -/
def localPrivateQuad (q : Nat × Nat × Nat × Nat) : Bool :=
  let a := q.1
  let b := q.2.1
  a = 10 || (a = 172 && 16 ≤ b && b ≤ 31) || (a = 192 && b = 168) ||
    (a = 169 && b = 254)

/-- The hostname classification inside `isLocalOrPrivateUrl` (after
`new URL(url).hostname.toLowerCase()`). -/
def isLocalOrPrivateHostname (hostname : String) : Bool :=
  if hostname = "localhost" || hostname = "localhost.localdomain" then true
  else if strStartsWith hostname "127." then true
  else if hostname = "::1" || hostname = "[::1]" then true
  else
    match ipv4Quad hostname with
    | some q => localPrivateQuad q
    | none => false

/-- `isLocalOrPrivateUrl` from `remote.ts` (`new URL` throwing is the
`urlParse = none` case, caught and mapped to `false`). -/
def isLocalOrPrivateUrl (ext : Ext) (url : String) : Bool :=
  match ext.urlParse url with
  | none => false
  | some u => isLocalOrPrivateHostname (strToLower u.hostname)

/-- `UrlCheckResult` from `remote.ts`.  `contentLength`'s outer `Option`
models `null` (no header), the inner one a `NaN` parse of the header. -/
structure UrlCheckResult where
  url : String
  status : Option Nat
  contentLength : Option (Option Int)
  error : Option String
  redirected : Bool
  finalUrl : Option String
  skipped : Bool
  skipReason : Option String
  isHttp : Option Bool
deriving DecidableEq, Repr

/-- `checkUrl` from `remote.ts`, with the `fetch` call abstracted as the
`fetcher` oracle.  The second component records whether the network was
consulted at all (`false` exactly on the early skip return). -/
def checkUrl (ext : Ext) (url : String) (fetcher : String → FetchOut) :
    UrlCheckResult × Bool :=
  if isLocalOrPrivateUrl ext url then
    ({ url := url, status := none, contentLength := none, error := none,
       redirected := false, finalUrl := none, skipped := true,
       skipReason := some "Local/private URL", isHttp := none }, false)
  else
    let isHttp := strStartsWith (strToLower url) "http://"
    match fetcher url with
    | .ok resp =>
      let contentLength : Option (Option Int) :=
        if jsTruthy resp.contentLengthHeader then
          some (jsParseInt (jsOrEmpty resp.contentLengthHeader))
        else none
      ({ url := url, status := some resp.status, contentLength := contentLength,
         error := none, redirected := resp.redirected,
         finalUrl := if resp.redirected then some resp.url else none,
         skipped := false, skipReason := none, isHttp := some isHttp }, true)
    | .thrown e =>
      ({ url := url, status := none, contentLength := none,
         error := some (getFetchErrorMessage ext e url),
         redirected := false, finalUrl := none, skipped := false,
         skipReason := none, isHttp := some isHttp }, true)

/-- One extracted URL to probe: the URL, its declared length, the element it
came from, and (in place of the parent back-references) that element's
ancestor chain for `buildPath`. -/
structure EnclosureRef where
  url : String
  length : Int
  element : XmlNode
  chain : List XmlNode

/-- `allChildElements` from `remote.ts`. -/
def allChildElements (parent : XmlNode) : List XmlNode :=
  parent.children.filter (fun c => c.isElement)

/-- `extractEnclosures` from `remote.ts`: main enclosures, delta enclosures,
then release-notes links (in that order). -/
def extractEnclosures (doc : XmlDocument) : List EnclosureRef :=
  match doc.root with
  | none => []
  | some root =>
    match childElement root "channel" with
    | none => []
    | some channel =>
      let items := childElements channel "item"
      let mains := (items.map (fun item =>
        let fromEnclosure :=
          match childElement item "enclosure" with
          | some enclosure =>
            match attr enclosure "url" with
            | some url =>
              if !url.isEmpty then
                let lengthStr := attr enclosure "length"
                [{ url := url,
                   length := jsParseIntOr0
                     (if jsTruthy lengthStr then jsOrEmpty lengthStr else "0"),
                   element := enclosure,
                   chain := [root, channel, item] : EnclosureRef }]
              else []
            | none => []
          | none => []
        let fromDeltas :=
          match (allChildElements item).find? (fun el =>
              el.name = "deltas" && isSparkleNamespace el.nsUri) with
          | some deltas =>
            ((allChildElements deltas).map (fun deltaEnc =>
              if deltaEnc.name = "enclosure" then
                match attr deltaEnc "url" with
                | some url =>
                  if !url.isEmpty then
                    let lengthStr := attr deltaEnc "length"
                    [{ url := url,
                       length := jsParseIntOr0
                         (if jsTruthy lengthStr then jsOrEmpty lengthStr else "0"),
                       element := deltaEnc,
                       chain := [root, channel, item, deltas] : EnclosureRef }]
                  else []
                | none => []
              else [])).flatten
          | none => []
        fromEnclosure ++ fromDeltas)).flatten
      let notes := (items.map (fun item =>
        ((allChildElements item).map (fun child =>
          if (child.name = "releaseNotesLink" || child.name = "fullReleaseNotesLink") &&
              isSparkleNamespace child.nsUri then
            match child.children.find? (fun c => !c.isElement) with
            | some (.text t _ _) =>
              let url := (jsTrim t)
              let lengthStr := sparkleAttr child "length"
              if !url.isEmpty &&
                  (strStartsWith url "http://" || strStartsWith url "https://") then
                [{ url := url,
                   length := jsParseIntOr0
                     (if jsTruthy lengthStr then jsOrEmpty lengthStr else "0"),
                   element := child,
                   chain := [root, channel, item] : EnclosureRef }]
              else []
            | _ => []
          else [])).flatten)).flatten
      mains ++ notes

/-- `buildPath` from `remote.ts`: like `elementPath`, but uses
`qname || name` and indexes siblings by local name only. -/
def remotePathLabel (parentOpt : Option XmlNode) (el : XmlNode) : String :=
  let base := if !el.qname.isEmpty then el.qname else el.name
  match parentOpt with
  | none => base
  | some p =>
    let siblings := p.children.filter (fun c => c.isElement && c.name = el.name)
    if siblings.length > 1 then
      let idx := (siblings.findIdx? (fun c => c == el)).getD 0
      base ++ "[" ++ toString (idx + 1) ++ "]"
    else base

def remoteBuildPath (ancestors : List XmlNode) (el : XmlNode) : String :=
  let nodes := ancestors ++ [el]
  let parents : List (Option XmlNode) := none :: nodes.map some
  String.intercalate " > " ((nodes.zip parents).map (fun np => remotePathLabel np.2 np.1))

/-- Printed form of a JavaScript number that may be `NaN`. -/
def jsNumToString (n : Option Int) : String :=
  match n with
  | some v => toString v
  | none => "NaN"

/-- `url.replace(/^http:/, "https:")`. -/
def httpToHttps (url : String) : String :=
  if strStartsWith url "http:" then "https:" ++ url.drop 5 else url

/-- The diagnostics the `validateRemote` result loop generates for one URL's
check result: W023 (then stop), else W024 / E027 / E028 / W021 / W022. -/
def resultDiagnostics (enc : EnclosureRef) (result : UrlCheckResult) :
    List Diagnostic :=
  let path := some (remoteBuildPath enc.chain enc.element)
  let line := some enc.element.line
  let column := some enc.element.column
  if result.skipped then
    [{ id := "W023", severity := .warning,
       message := "Skipped URL check: " ++ (result.skipReason.getD "undefined") ++
         " (" ++ enc.url ++ ")",
       line := line, column := column, path := path,
       fix := some "Use a publicly accessible URL for production appcasts" }]
  else
    let w024 :=
      if result.isHttp = some true then
        [{ id := "W024", severity := .warning,
           message := "URL uses insecure HTTP instead of HTTPS",
           line := line, column := column, path := path,
           fix := some ("Use HTTPS for secure downloads: " ++ httpToHttps enc.url) }]
      else []
    let e027 :=
      match result.error with
      | some err =>
        [{ id := "E027", severity := .error,
           message := "Failed to fetch URL: " ++ err,
           line := line, column := column, path := path,
           fix := some ("Verify the URL is accessible: " ++ enc.url) }]
      | none =>
        match result.status with
        | some status =>
          if status ≠ 0 && (status < 200 || status ≥ 300) then
            [{ id := "E027", severity := .error,
               message := "URL returned HTTP " ++ toString status ++ ": " ++ enc.url,
               line := line, column := column, path := path,
               fix := some "Ensure the URL returns a successful status code" }]
          else []
        | none => []
    let e028 :=
      match result.contentLength with
      | some cl =>
        if enc.length > 0 && cl ≠ some enc.length then
          [{ id := "E028", severity := .error,
             message := "Content-Length mismatch: declared " ++ toString enc.length ++
               " bytes, server reports " ++ jsNumToString cl ++ " bytes",
             line := line, column := column, path := path,
             fix := some ("Update the length attribute to " ++ jsNumToString cl) }]
        else []
      | none => []
    let w021 :=
      match result.finalUrl with
      | some finalUrl =>
        if result.redirected && !finalUrl.isEmpty then
          [{ id := "W021", severity := .warning,
             message := "URL redirects to: " ++ finalUrl,
             line := line, column := column, path := path,
             fix := some ("Consider using the final URL directly: " ++ finalUrl) }]
        else []
      | none => []
    let w022 :=
      match result.status with
      | some status =>
        if status ≠ 0 && 200 ≤ status && status < 300 &&
            result.contentLength = none && enc.length > 0 then
          [{ id := "W022", severity := .warning,
             message := "Server did not return Content-Length header, cannot verify declared size of " ++
               toString enc.length ++ " bytes",
             line := line, column := column, path := path }]
        else []
      | none => []
    w024 ++ e027 ++ e028 ++ w021 ++ w022

/-- `validateRemote` from `remote.ts`.  The batching (`concurrency` slices
awaited with `Promise.all`) only bounds parallelism: the `results` array is
filled in enclosure order regardless of the batch boundaries, so the
sequential map is the same function of the fetch oracle. -/
def validateRemote (ext : Ext) (doc : XmlDocument) (fetcher : String → FetchOut) :
    List Diagnostic :=
  let enclosures := extractEnclosures doc
  (enclosures.map (fun enc =>
    resultDiagnostics enc (checkUrl ext enc.url fetcher).1)).flatten

/-! ## `functions/api/fetch.ts` — the web proxy's SSRF classifier -/

/-- The IPv4 range tests of `isPrivateIP` (in source order; `d` is parsed
but never consulted beyond the octet bound). -/
def ipv4PrivateRanges (q : Nat × Nat × Nat × Nat) : Bool :=
  let a := q.1
  let b := q.2.1
  let c := q.2.2.1
  let d := q.2.2.2
  if a > 255 || b > 255 || c > 255 || d > 255 then true
  else if a = 0 then true
  else if a = 10 then true
  else if a = 100 && 64 ≤ b && b ≤ 127 then true
  else if a = 127 then true
  else if a = 169 && b = 254 then true
  else if a = 172 && 16 ≤ b && b ≤ 31 then true
  else if a = 192 && b = 0 && c = 0 then true
  else if a = 192 && b = 0 && c = 2 then true
  else if a = 192 && b = 168 then true
  else if a = 198 && (b = 18 || b = 19) then true
  else if a = 198 && b = 51 && c = 100 then true
  else if a = 203 && b = 0 && c = 113 then true
  else if 224 ≤ a && a ≤ 239 then true
  else if 240 ≤ a then true
  else false

/-- `isPrivateIP` from `functions/api/fetch.ts`, on the string's character
list (`toLowerCase`, `startsWith` and `slice` act character-wise):
dotted-quad IPv4 ranges, else the textual IPv6 tests, recursing on the tail
of an IPv4-mapped (`::ffff:`) form.  The `fuel` argument only bounds the
recursion so the definition is structural; each recursive step consumes a
7-character `::ffff:` prefix, so with `fuel > length` the bound is never
reached (`isPrivateIPGo_fuel_irrelevant`). -/
def isPrivateIPGo : Nat → List Char → Bool
  | 0, _ => false
  | fuel + 1, cs =>
    match ipv4Quad (String.mk cs) with
    | some q => ipv4PrivateRanges q
    | none =>
      let ipv6 := cs.map Char.toLower
      if ipv6 = "::1".data then true
      else if "fe80:".data.isPrefixOf ipv6 then true
      else if "fc".data.isPrefixOf ipv6 || "fd".data.isPrefixOf ipv6 then true
      else if "::ffff:".data.isPrefixOf ipv6 then isPrivateIPGo fuel (ipv6.drop 7)
      else false

/-- `isPrivateIP(ip)`. -/
def isPrivateIP (ip : String) : Bool := isPrivateIPGo (ip.length + 1) ip.data


/-- The hostname shapes `onRequestGet` treats as IP literals
(`/^[\d.]+$/.test(hostname) || hostname.includes(":")`), checking them with
`isPrivateIP` alone instead of resolving them. -/
def hostTreatedAsIpLiteral (hostname : String) : Bool :=
  (!hostname.isEmpty && hostname.data.all (fun c => c.isDigit || c = '.')) ||
    hostname.data.contains ':'

/-! ## Claim-side definitions

These definitions are written from the wording of the specification/claims
(not from the source), for the refinement-style comparisons; each one says
which claim it belongs to. -/

/-- The numeric value of a dotted quad. -/
def ipv4Value (a b c d : Nat) : Nat := ((a * 256 + b) * 256 + c) * 256 + d

/-- Membership of `n` in the (aligned) CIDR block `base/maskBits`. -/
def inCidr (n base maskBits : Nat) : Bool :=
  base ≤ n && n < base + 2 ^ (32 - maskBits)

/-- Claim C6's IPv4 classification, written as CIDR-range membership over
the numeric address value: 0.0.0.0/8, 10/8, 100.64/10, 127/8, 169.254/16,
172.16/12, 192.0.0/24, 192.0.2/24, 192.168/16, 198.18/15, 198.51.100/24,
203.0.113/24, 224/4, 240/4, plus any octet exceeding 255. -/
def claimedPrivateV4 (a b c d : Nat) : Bool :=
  if a > 255 || b > 255 || c > 255 || d > 255 then true
  else
    let n := ipv4Value a b c d
    inCidr n (ipv4Value 0 0 0 0) 8 || (inCidr n (ipv4Value 10 0 0 0) 8 ||
    (inCidr n (ipv4Value 100 64 0 0) 10 || (inCidr n (ipv4Value 127 0 0 0) 8 ||
    (inCidr n (ipv4Value 169 254 0 0) 16 || (inCidr n (ipv4Value 172 16 0 0) 12 ||
    (inCidr n (ipv4Value 192 0 0 0) 24 || (inCidr n (ipv4Value 192 0 2 0) 24 ||
    (inCidr n (ipv4Value 192 168 0 0) 16 || (inCidr n (ipv4Value 198 18 0 0) 15 ||
    (inCidr n (ipv4Value 198 51 100 0) 24 || (inCidr n (ipv4Value 203 0 113 0) 24 ||
    (inCidr n (ipv4Value 224 0 0 0) 4 || inCidr n (ipv4Value 240 0 0 0) 4))))))))))))

/-- The value of a hexadecimal digit (0 on other characters). -/
def hexDigitVal (c : Char) : Nat :=
  if c.isDigit then c.toNat - 48
  else if 'a' ≤ c && c ≤ 'f' then c.toNat - 87
  else if 'A' ≤ c && c ≤ 'F' then c.toNat - 55
  else 0

/-- The leading 16-bit group of an IPv6 address text (claims C6/C7: needed
to state membership in `fe80::/10`). -/
def ipv6FirstGroup (s : String) : Option Nat :=
  let grp := s.data.takeWhile (fun c =>
    c.isDigit || ('a' ≤ c && c ≤ 'f') || ('A' ≤ c && c ≤ 'F'))
  if grp.isEmpty || grp.length > 4 then none
  else some (grp.foldl (fun n c => n * 16 + hexDigitVal c) 0)

/-- Claims C6/C7: membership in `fe80::/10` — the top 10 bits of the
address (all inside its first 16-bit group) are `1111111010`, i.e. the first
group shifted right by 6 equals `0x3FA = 1018`. -/
def inFe80Slash10 (s : String) : Bool :=
  match ipv6FirstGroup s with
  | some g => decide (g / 64 = 1018)
  | none => false

/-- Strip the WHATWG brackets from an IPv6 URL host (`"[fe80::1]"` →
`"fe80::1"`). -/
def stripBrackets (h : String) : String :=
  match h.data with
  | '[' :: rest =>
    if rest.getLast? = some ']' then String.mk (rest.dropLast) else h
  | _ => h

/-! ### Concrete inputs used by witnesses and counterexamples -/

/-- A 63-decoded-byte Ed25519 signature candidate with a line wrap
(84 base64 characters, no padding). -/
def sigW : String := "AAAA\n" ++ String.mk (List.replicate 80 'A')

/-- An enclosure whose `sparkle:edSignature` is the empty string (C3's
counterexample: JavaScript truthiness makes the program treat it as
unsigned). -/
def encC3 : XmlNode :=
  .element "enclosure" "enclosure" "" ""
    [{ name := "edSignature", qname := "sparkle:edSignature",
       nsUri := SPARKLE_NS, pfx := "sparkle", value := "" }] [] 5 3

/-- An enclosure element carrying only `sparkle:edSignature`. -/
def encW : XmlNode :=
  .element "enclosure" "enclosure" "" ""
    [{ name := "edSignature", qname := "sparkle:edSignature",
       nsUri := SPARKLE_NS, pfx := "sparkle", value := sigW }] [] 5 3

/-- The URL of the C7 counterexample: an IPv6 link-local literal host. -/
def urlC7 : String := "http://[fe80::1]/app.zip"

/-- A URL-parser oracle behaving as the WHATWG parser does on `urlC7`
(the hostname of an IPv6 host keeps its brackets). -/
def extC7 : Ext :=
  { dateParse := fun _ => none,
    nowMs := 0,
    urlParse := fun s =>
      if s = urlC7 then
        some { protocol := "http:", hostname := "[fe80::1]",
               pathname := "/app.zip" }
      else none }

/-- An arbitrary fetch oracle (a 200 response). -/
def fetchC7 : String → FetchOut :=
  fun _ => .ok { status := 200, contentLengthHeader := none,
                 redirected := false, url := "" }

/-- A trivial external-collaborator record for concrete evaluations that do
not consult it. -/
def extTrivial : Ext :=
  { dateParse := fun _ => none, nowMs := 0, urlParse := fun _ => none }


/-- The URL of the C7 amended-claim witness: an RFC 1918 literal host. -/
def urlPriv : String := "http://10.0.0.5/app.zip"

/-- A URL-parser oracle for `urlPriv`. -/
def extPriv : Ext :=
  { dateParse := fun _ => none,
    nowMs := 0,
    urlParse := fun s =>
      if s = urlPriv then
        some { protocol := "http:", hostname := "10.0.0.5",
               pathname := "/app.zip" }
      else none }

/-- An extracted-enclosure record for the C7 witness. -/
def encPriv : EnclosureRef :=
  { url := urlPriv, length := 100,
    element := .element "enclosure" "enclosure" "" "" [] [] 3 5, chain := [] }


/-! Concrete items for the C4/C5 witnesses. -/

/-- A bare `rss` root stub (only consulted for path labels). -/
def rootW : XmlNode := .element "rss" "rss" "" "" [] [] 1 1

/-- A whitespace-only `sparkle:version` element. -/
def vElC4 : XmlNode :=
  .element "version" "sparkle:version" SPARKLE_NS "sparkle" [] [.text "   " 3 20] 3 5

/-- An enclosure with a usable `sparkle:version` attribute. -/
def encC4 : XmlNode :=
  .element "enclosure" "enclosure" "" ""
    [{ name := "url", qname := "url", nsUri := "", pfx := "",
       value := "https://example.com/MyApp_2.0.zip" },
     { name := "version", qname := "sparkle:version", nsUri := SPARKLE_NS,
       pfx := "sparkle", value := "2.0" }] [] 4 5

/-- The C4 witness item: whitespace-only version element, usable fallback. -/
def itemC4 : XmlNode := .element "item" "item" "" "" [] [vElC4, encC4] 2 3

/-- An enclosure with only a deducible (filename) version. -/
def encC5 : XmlNode :=
  .element "enclosure" "enclosure" "" ""
    [{ name := "url", qname := "url", nsUri := "", pfx := "",
       value := "https://example.com/MyApp_1.5.zip" }] [] 4 5

/-- The C5 witness item: no explicit version anywhere. -/
def itemC5 : XmlNode := .element "item" "item" "" "" [] [encC5] 2 3


/-! Concrete inputs for the C2 counterexample and witness. -/

/-- The C2 raw XML: a declaration without `encoding=` and a non-`rss` root. -/
def xmlC2 : String := "<?xml version=\"1.0\"?>\n<foo></foo>"

/-- The root element of `xmlC2`. -/
def rootC2 : XmlNode := .element "foo" "foo" "" "" [] [] 2 1

/-- The parsed document of `xmlC2`. -/
def docC2 : XmlDocument := { root := some rootC2, namespaces := [] }

/-- A parser oracle behaving as the wrapped saxes parser does on `xmlC2`
(well-formed XML: a document and no diagnostics). -/
def parseC2 : String → ParseResult := fun _ =>
  { document := docC2, diagnostics := [] }

/-! ## Supporting lemmas -/

lemma firstOccurrenceIds_append_singleton (ds : List Diagnostic) (d : Diagnostic) :
    firstOccurrenceIds (ds ++ [d]) =
      (if (firstOccurrenceIds ds).contains d.id then firstOccurrenceIds ds
       else firstOccurrenceIds ds ++ [d.id]) := by
  simp [firstOccurrenceIds, List.foldl_append]

lemma contains_eq_decide_mem (ks : List String) (a : String) :
    ks.contains a = decide (a ∈ ks) :=
  List.elem_eq_mem a ks

lemma mem_foldl_idStep {i : String} (ds : List Diagnostic) :
    ∀ ks : List String,
      (i ∈ ds.foldl (fun ks d => if ks.contains d.id then ks else ks ++ [d.id]) ks ↔
        i ∈ ks ∨ ∃ x ∈ ds, x.id = i) := by
  induction ds with
  | nil => intro ks; simp
  | cons d ds ih =>
    intro ks
    rw [List.foldl_cons, ih]
    by_cases h : d.id ∈ ks
    · rw [contains_eq_decide_mem, decide_eq_true h, if_pos rfl]
      constructor
      · rintro (hk | ⟨x, hx, hid⟩)
        · exact Or.inl hk
        · exact Or.inr ⟨x, List.mem_cons_of_mem _ hx, hid⟩
      · rintro (hk | ⟨x, hx, hid⟩)
        · exact Or.inl hk
        · rcases List.mem_cons.mp hx with rfl | hx'
          · left; rw [← hid]; exact h
          · exact Or.inr ⟨x, hx', hid⟩
    · rw [contains_eq_decide_mem, decide_eq_false h]
      simp only [Bool.false_eq_true, if_false, List.mem_append, List.mem_singleton]
      constructor
      · rintro ((hk | rfl) | ⟨x, hx, hid⟩)
        · exact Or.inl hk
        · exact Or.inr ⟨d, List.mem_cons_self _ _, rfl⟩
        · exact Or.inr ⟨x, List.mem_cons_of_mem _ hx, hid⟩
      · rintro (hk | ⟨x, hx, hid⟩)
        · exact Or.inl (Or.inl hk)
        · rcases List.mem_cons.mp hx with rfl | hx'
          · exact Or.inl (Or.inr hid.symm)
          · exact Or.inr ⟨x, hx', hid⟩

lemma mem_firstOccurrenceIds {i : String} {ds : List Diagnostic} :
    i ∈ firstOccurrenceIds ds ↔ ∃ x ∈ ds, x.id = i := by
  unfold firstOccurrenceIds
  rw [mem_foldl_idStep]
  simp

lemma filter_id_ne_nil_of_mem_firstOcc {i : String} {ds : List Diagnostic}
    (h : i ∈ firstOccurrenceIds ds) : ds.filter (fun d => d.id = i) ≠ [] := by
  rcases mem_firstOccurrenceIds.mp h with ⟨x, hx, hid⟩
  intro hnil
  have : x ∈ ds.filter (fun d => d.id = i) := by
    rw [List.mem_filter]; exact ⟨hx, by simp [hid]⟩
  rw [hnil] at this
  exact absurd this (List.not_mem_nil x)

lemma canonicalGroups_key_mem {g : DiagGroup} {ds : List Diagnostic}
    (h : g ∈ canonicalGroups ds) : g.1 ∈ firstOccurrenceIds ds := by
  unfold canonicalGroups at h
  rcases List.mem_filterMap.mp h with ⟨i, hi, hf⟩
  revert hf
  cases hfil : ds.filter (fun d => d.id = i) with
  | nil => simp
  | cons f r =>
    intro hf
    simp only [Option.some.injEq] at hf
    rw [← hf]
    exact hi

lemma filter_append_singleton (ds : List Diagnostic) (d : Diagnostic) (i : String) :
    (ds ++ [d]).filter (fun x => x.id = i) =
      ds.filter (fun x => x.id = i) ++ (if d.id = i then [d] else []) := by
  rw [List.filter_append]
  by_cases h : d.id = i <;> simp [h]

/-- The `byId` map built by the fold equals its canonical description. -/
lemma groupById_eq_canonical (ds : List Diagnostic) :
    groupById ds = canonicalGroups ds := by
  induction ds using List.reverseRecOn with
  | nil => rfl
  | append_singleton ds d ih =>
    have hstep : groupById (ds ++ [d]) = insertDiag (groupById ds) d := by
      simp [groupById, List.foldl_append]
    rw [hstep, ih]
    by_cases hmem : d.id ∈ firstOccurrenceIds ds
    · -- the id already has a group: `d` is appended to it, in place
      have hcontains : (firstOccurrenceIds ds).contains d.id = true := by
        rw [contains_eq_decide_mem, decide_eq_true hmem]
      have hne := filter_id_ne_nil_of_mem_firstOcc hmem
      have hany : (canonicalGroups ds).any (fun g => g.1 = d.id) = true := by
        cases hfil : ds.filter (fun x => x.id = d.id) with
        | nil => exact absurd hfil hne
        | cons f r =>
          apply List.any_eq_true.mpr
          refine ⟨(d.id, f, r), ?_, by simp⟩
          unfold canonicalGroups
          exact List.mem_filterMap.mpr ⟨d.id, hmem, by rw [hfil]⟩
      unfold insertDiag
      rw [hany]
      simp only [if_pos]
      unfold canonicalGroups
      rw [firstOccurrenceIds_append_singleton, hcontains]
      simp only [if_pos]
      rw [← List.filterMap_eq_map, List.filterMap_filterMap]
      apply List.filterMap_congr
      intro i hi
      have hne' := filter_id_ne_nil_of_mem_firstOcc hi
      cases hfil : ds.filter (fun x => x.id = i) with
      | nil => exact absurd hfil hne'
      | cons f r =>
        rw [filter_append_singleton, hfil]
        by_cases hid : d.id = i
        · subst hid
          simp [hfil]
        · have hid' : ¬i = d.id := fun h => hid h.symm
          simp [hfil, hid, hid']
    · -- the id is new: a fresh singleton group is appended at the end
      have hcontains : (firstOccurrenceIds ds).contains d.id = false := by
        rw [contains_eq_decide_mem, decide_eq_false hmem]
      have hfilnil : ds.filter (fun x => x.id = d.id) = [] := by
        rw [List.filter_eq_nil_iff]
        intro x hx hno
        exact hmem (mem_firstOccurrenceIds.mpr ⟨x, hx, by simpa using hno⟩)
      have hany : (canonicalGroups ds).any (fun g => g.1 = d.id) = false := by
        rw [List.any_eq_false]
        intro g hg
        have := canonicalGroups_key_mem hg
        simp only [decide_eq_true_eq]
        intro heq
        rw [heq] at this
        exact hmem this
      unfold insertDiag
      rw [hany]
      simp only [Bool.false_eq_true, if_false]
      unfold canonicalGroups
      rw [firstOccurrenceIds_append_singleton, hcontains]
      simp only [Bool.false_eq_true, if_false]
      rw [List.filterMap_append]
      congr 1
      · apply List.filterMap_congr
        intro i hi
        have hne' := filter_id_ne_nil_of_mem_firstOcc hi
        have hid : d.id ≠ i := by
          intro h; rw [h] at hmem; exact hmem hi
        cases hfil : ds.filter (fun x => x.id = i) with
        | nil => exact absurd hfil hne'
        | cons f r =>
          rw [filter_append_singleton, hfil]
          simp [hid]
      · symm
        rw [show ∀ (f : String → Option DiagGroup), List.filterMap f [d.id] =
              (f d.id).toList from fun f => by
            simp only [List.filterMap]
            cases f d.id <;> rfl]
        rw [filter_append_singleton, hfilnil]
        simp

/-- Code-vs-spec refinement of consolidation (shared helper): the fold-built
implementation agrees with the direct grouping description. -/
lemma consolidateDiagnostics_eq_spec (ds : List Diagnostic) :
    consolidateDiagnostics ds = consolidateSpec ds := by
  unfold consolidateDiagnostics consolidateSpec
  rw [groupById_eq_canonical]
  unfold canonicalGroups
  rw [← List.filterMap_eq_map, List.filterMap_filterMap]
  apply List.filterMap_congr
  intro i _
  cases hfil : ds.filter (fun d => d.id = i) with
  | nil => rfl
  | cons f r =>
    cases r with
    | nil => rfl
    | cons x xs => simp [emitGroup, Option.bind]

lemma foldl_idStep_nodup (ds : List Diagnostic) :
    ∀ ks : List String, ks.Nodup →
      (ds.foldl (fun ks d => if ks.contains d.id then ks else ks ++ [d.id]) ks).Nodup := by
  induction ds with
  | nil => intro ks h; exact h
  | cons d ds ih =>
    intro ks h
    rw [List.foldl_cons]
    apply ih
    by_cases hm : d.id ∈ ks
    · rw [contains_eq_decide_mem, decide_eq_true hm, if_pos rfl]; exact h
    · rw [contains_eq_decide_mem, decide_eq_false hm]
      simp only [Bool.false_eq_true, if_false]
      simp [List.nodup_append, h, hm]

lemma firstOccurrenceIds_nodup (ds : List Diagnostic) :
    (firstOccurrenceIds ds).Nodup :=
  foldl_idStep_nodup ds [] List.nodup_nil

/-- Each consolidated diagnostic carries the id of its group. -/
lemma consolidateSpec_ids (ds : List Diagnostic) :
    (consolidateSpec ds).map (fun d => d.id) = firstOccurrenceIds ds := by
  unfold consolidateSpec
  rw [← List.filterMap_eq_map, List.filterMap_filterMap]
  conv_rhs => rw [show firstOccurrenceIds ds =
      (firstOccurrenceIds ds).filterMap (fun i => some i) by simp]
  apply List.filterMap_congr
  intro i hi
  have hne : ds.filter (fun d => d.id = i) ≠ [] :=
    filter_id_ne_nil_of_mem_firstOcc hi
  cases hfil : ds.filter (fun d => d.id = i) with
  | nil => exact absurd hfil hne
  | cons f r =>
    have hf : f.id = i := by
      have : f ∈ ds.filter (fun d => d.id = i) := by rw [hfil]; exact List.mem_cons_self _ _
      simpa using (List.mem_filter.mp this).2
    cases r with
    | nil => simp [Option.bind, hf]
    | cons x xs => simp [Option.bind, hf]

/-- On an input whose ids are pairwise distinct, consolidation is the
identity. -/
lemma consolidateSpec_of_nodup_ids (ds : List Diagnostic)
    (h : (ds.map (fun d => d.id)).Nodup) : consolidateSpec ds = ds := by
  induction ds using List.reverseRecOn with
  | nil => rfl
  | append_singleton ds d ih =>
    rw [List.map_append, List.nodup_append] at h
    obtain ⟨h1, _, hdisj⟩ := h
    have hfresh : d.id ∉ firstOccurrenceIds ds := by
      intro hmem
      rcases mem_firstOccurrenceIds.mp hmem with ⟨x, hx, hid⟩
      have hin : d.id ∈ List.map (fun d => d.id) ds :=
        List.mem_map.mpr ⟨x, hx, hid⟩
      exact hdisj hin (by simp)
    have hcontains : (firstOccurrenceIds ds).contains d.id = false := by
      rw [contains_eq_decide_mem, decide_eq_false hfresh]
    have hfilnil : ds.filter (fun x => x.id = d.id) = [] := by
      rw [List.filter_eq_nil_iff]
      intro x hx hno
      exact hfresh (mem_firstOccurrenceIds.mpr ⟨x, hx, by simpa using hno⟩)
    unfold consolidateSpec
    rw [firstOccurrenceIds_append_singleton, hcontains]
    simp only [Bool.false_eq_true, if_false]
    rw [List.filterMap_append]
    congr 1
    · have hrw : (firstOccurrenceIds ds).filterMap (fun i =>
          match (ds ++ [d]).filter (fun x => x.id = i) with
          | [] => none
          | [x] => some x
          | x :: rest => some { x with
              message := consolidatedMessage x.message (1 + rest.length) }) =
          consolidateSpec ds := by
        unfold consolidateSpec
        apply List.filterMap_congr
        intro i hi
        have hid : ¬d.id = i := by
          intro hEq; rw [hEq] at hfresh; exact hfresh hi
        rw [filter_append_singleton, if_neg hid]
        simp
      rw [hrw, ih h1]
    · rw [show ∀ (f : String → Option Diagnostic), List.filterMap f [d.id] =
            (f d.id).toList from fun f => by
          simp only [List.filterMap]
          cases f d.id <;> rfl]
      rw [filter_append_singleton, hfilnil]
      simp

lemma insertStable_perm (a : Diagnostic) (l : List Diagnostic) :
    List.Perm (insertStable a l) (a :: l) := by
  induction l with
  | nil => rfl
  | cons b bs ih =>
    unfold insertStable
    by_cases h : keyLe (sortKey b) (sortKey a) = true
    · rw [if_pos h]
      exact List.Perm.trans (List.Perm.cons b ih) (List.Perm.swap a b bs)
    · rw [if_neg h]

lemma sortDiagnostics_perm (ds : List Diagnostic) :
    List.Perm (sortDiagnostics ds) ds := by
  have key : ∀ (ds acc : List Diagnostic),
      List.Perm (ds.foldl (fun acc d => insertStable d acc) acc) (ds ++ acc) := by
    intro ds
    induction ds with
    | nil => intro acc; simp
    | cons d ds ih =>
      intro acc
      rw [List.foldl_cons]
      refine List.Perm.trans (ih _) ?_
      refine List.Perm.trans (List.Perm.append_left ds (insertStable_perm d acc)) ?_
      rw [List.cons_append]
      exact List.perm_middle
  have := key ds []
  simpa using this

lemma isPrivateIPGo_fuel_irrelevant :
    ∀ (f1 : Nat) (cs : List Char) (f2 : Nat), cs.length < f1 → cs.length < f2 →
      isPrivateIPGo f1 cs = isPrivateIPGo f2 cs := by
  intro f1
  induction f1 with
  | zero => intro cs f2 h1 _; exact absurd h1 (Nat.not_lt_zero _)
  | succ a ih =>
    intro cs f2 h1 h2
    cases f2 with
    | zero => exact absurd h2 (Nat.not_lt_zero _)
    | succ b =>
      show isPrivateIPGo (a + 1) cs = isPrivateIPGo (b + 1) cs
      unfold isPrivateIPGo
      cases hq : ipv4Quad (String.mk cs) with
      | some q => rfl
      | none =>
        simp only
        by_cases hpre : ("::ffff:".data.isPrefixOf (cs.map Char.toLower)) = true
        · have hlen : 7 ≤ (cs.map Char.toLower).length := by
            have := (List.isPrefixOf_iff_prefix.mp hpre).length_le
            simpa using this
          have hdroplen : ((cs.map Char.toLower).drop 7).length = cs.length - 7 := by
            rw [List.length_drop, List.length_map]
          rw [List.length_map] at hlen
          have ha : ((cs.map Char.toLower).drop 7).length < a := by omega
          have hb : ((cs.map Char.toLower).drop 7).length < b := by omega
          rw [ih _ _ ha hb]
        · simp [hpre]

lemma splitCharList_ne_nil (c : Char) (l : List Char) : splitCharList c l ≠ [] := by
  induction l with
  | nil => simp [splitCharList]
  | cons x xs ih =>
    simp only [splitCharList]
    split
    · simp
    · cases h : splitCharList c xs <;> simp

lemma splitCharList_append_cons (c : Char) (a b : List Char) :
    splitCharList c (a ++ c :: b) = splitCharList c a ++ splitCharList c b := by
  induction a with
  | nil => simp [splitCharList]
  | cons x xs ih =>
    by_cases hx : x = c
    · subst hx
      simp [splitCharList, ih]
    · simp only [List.cons_append, splitCharList, if_neg hx, List.append_eq, ih]
      cases hxs : splitCharList c xs with
      | nil => exact absurd hxs (splitCharList_ne_nil c xs)
      | cons hh tt => rfl

lemma splitCharList_not_contains (c : Char) (l : List Char)
    (h : l.contains c = false) : splitCharList c l = [l] := by
  induction l with
  | nil => rfl
  | cons x xs ih =>
    simp only [List.contains_cons, Bool.or_eq_false_iff, beq_eq_false_iff_ne,
      ne_eq] at h
    have hx : ¬ (x = c) := fun hh => h.1 hh.symm
    simp only [splitCharList, if_neg hx, ih h.2]

lemma findIdx_go_boundary (p : Char → Bool) (xs ys : List Char) (y : Char)
    (i : Nat) (hxs : ∀ x ∈ xs, p x = false) (hy : p y = true) :
    List.findIdx? p (xs ++ y :: ys) i = some (i + xs.length) := by
  induction xs generalizing i with
  | nil => simp [List.findIdx?, hy]
  | cons x zs ih =>
    have hx := hxs x (by simp)
    rw [List.cons_append]
    rw [show List.findIdx? p (x :: (zs ++ y :: ys)) i =
      if p x then some i else List.findIdx? p (zs ++ y :: ys) (i + 1) from rfl]
    rw [hx, if_neg (by simp), ih (i + 1) (fun a ha => hxs a (by simp [ha]))]
    simp
    omega

lemma lastIdxList_boundary (ver ext : List Char) (h : ext.contains '.' = false) :
    lastIdxList '.' (ver ++ '.' :: ext) = some ver.length := by
  have hnotin : ('.' : Char) ∉ ext := by simpa using h
  unfold lastIdxList
  have hrev : (ver ++ '.' :: ext).reverse = ext.reverse ++ '.' :: ver.reverse := by
    simp
  rw [hrev, findIdx_go_boundary _ _ _ _ 0 (fun x hx => by
    simp only [List.mem_reverse] at hx
    simp only [decide_eq_false_iff_not]
    exact fun hh => hnotin (hh ▸ hx)) (by simp)]
  simp only [List.length_reverse, List.length_append, List.length_cons,
    Nat.zero_add]
  congr 1
  omega

lemma versionRulesEmit_nonrss (ext : Ext) (doc : XmlDocument) (r : XmlNode)
    (hr : doc.root = some r) (hn : r.name ≠ "rss") :
    versionRulesEmit ext doc = [] := by
  simp only [versionRulesEmit, hr]
  rw [if_pos hn]

lemma enclosureRulesEmit_nonrss (doc : XmlDocument) (r : XmlNode)
    (hr : doc.root = some r) (hn : r.name ≠ "rss") :
    enclosureRulesEmit doc = [] := by
  simp only [enclosureRulesEmit, hr]
  rw [if_pos hn]

lemma dateRulesEmit_nonrss (ext : Ext) (doc : XmlDocument) (r : XmlNode)
    (hr : doc.root = some r) (hn : r.name ≠ "rss") :
    dateRulesEmit ext doc = [] := by
  simp only [dateRulesEmit, hr]
  rw [if_pos hn]

lemma urlRulesEmit_nonrss (ext : Ext) (doc : XmlDocument) (r : XmlNode)
    (hr : doc.root = some r) (hn : r.name ≠ "rss") :
    urlRulesEmit ext doc = [] := by
  simp only [urlRulesEmit, hr]
  rw [if_pos hn]

lemma systemRequirementRulesEmit_nonrss (doc : XmlDocument) (r : XmlNode)
    (hr : doc.root = some r) (hn : r.name ≠ "rss") :
    systemRequirementRulesEmit doc = [] := by
  simp only [systemRequirementRulesEmit, hr]
  rw [if_pos hn]

lemma releaseNotesRulesEmit_nonrss (doc : XmlDocument) (r : XmlNode)
    (hr : doc.root = some r) (hn : r.name ≠ "rss") :
    releaseNotesRulesEmit doc = [] := by
  simp only [releaseNotesRulesEmit, hr]
  rw [if_pos hn]

lemma channelRulesEmit_nonrss (doc : XmlDocument) (r : XmlNode)
    (hr : doc.root = some r) (hn : r.name ≠ "rss") :
    channelRulesEmit doc = [] := by
  simp only [channelRulesEmit, hr]
  rw [if_pos hn]

lemma rolloutRulesEmit_nonrss (doc : XmlDocument) (r : XmlNode)
    (hr : doc.root = some r) (hn : r.name ≠ "rss") :
    rolloutRulesEmit doc = [] := by
  simp only [rolloutRulesEmit, hr]
  rw [if_pos hn]

lemma bestPracticeRulesEmit_nonrss (doc : XmlDocument) (r : XmlNode)
    (hr : doc.root = some r) (hn : r.name ≠ "rss") :
    bestPracticeRulesEmit doc = [] := by
  simp only [bestPracticeRulesEmit, hr]
  rw [if_pos hn]

lemma infoRulesEmit_nonrss (doc : XmlDocument) (r : XmlNode)
    (hr : doc.root = some r) (hn : r.name ≠ "rss") :
    infoRulesEmit doc = [] := by
  simp only [infoRulesEmit, hr]
  rw [if_pos hn]

/-- The E002 case of `structureRules`. -/
lemma structureRulesEmit_nonrss (doc : XmlDocument) (r : XmlNode)
    (hr : doc.root = some r) (hn : r.name ≠ "rss") :
    structureRulesEmit doc =
      [{ id := "E002", severity := .error,
         message := "Root element is <" ++ r.qname ++ ">, expected <rss>",
         line := some r.line, column := some r.column,
         path := some (elementPath [] r),
         fix := some "Change the root element to <rss>" }] := by
  simp only [structureRulesEmit, hr]
  rw [if_pos hn]

/-- On a non-`rss` root, the whole rule loop contributes only
`structureRules`' diagnostics: every downstream module returns without
pushing (whether or not the structural gate breaks the loop). -/
lemma runRules_nonrss (ext : Ext) (doc : XmlDocument) (ds0 : List Diagnostic)
    (r : XmlNode) (hr : doc.root = some r) (hn : r.name ≠ "rss") :
    runRules ext doc ds0 = ds0 ++ structureRulesEmit doc := by
  unfold runRules allRules
  simp only [List.foldl_cons, List.foldl_nil, structureRules, versionRules,
    enclosureRules, dateRules, urlRules, systemRequirementRules,
    releaseNotesRules, channelRules, rolloutRules, bestPracticeRules, infoRules,
    versionRulesEmit_nonrss ext doc r hr hn,
    enclosureRulesEmit_nonrss doc r hr hn,
    dateRulesEmit_nonrss ext doc r hr hn,
    urlRulesEmit_nonrss ext doc r hr hn,
    systemRequirementRulesEmit_nonrss doc r hr hn,
    releaseNotesRulesEmit_nonrss doc r hr hn,
    channelRulesEmit_nonrss doc r hr hn,
    rolloutRulesEmit_nonrss doc r hr hn,
    bestPracticeRulesEmit_nonrss doc r hr hn,
    infoRulesEmit_nonrss doc r hr hn,
    List.append_nil]
  split <;> rfl

lemma checkCdataEmit_ids (raw : String) :
    ∀ d ∈ checkCdataEmit raw, d.id = "W038" := by
  intro d hd
  simp only [checkCdataEmit, List.mem_append, List.mem_map] at hd
  rcases hd with (⟨i, _, rfl⟩ | ⟨i, _, rfl⟩) | ⟨i, _, rfl⟩ <;> rfl

/-- `xmlFormatRules` only ever pushes W039 and W038. -/
lemma xmlFormatRulesEmit_ids (doc : XmlDocument) (raw : String) :
    ∀ d ∈ xmlFormatRulesEmit doc raw, d.id = "W039" ∨ d.id = "W038" := by
  intro d hd
  simp only [xmlFormatRulesEmit, List.mem_append] at hd
  rcases hd with h | h
  · left
    simp only [checkXmlDeclarationEmit] at h
    revert h
    split
    · split
      · intro h
        rcases List.mem_singleton.mp h with rfl
        rfl
      · simp
    · simp
  · right
    revert h
    split
    · exact fun h => checkCdataEmit_ids raw d h
    · simp

/-- Consolidation keeps a diagnostic of `d0`'s severity whenever every
diagnostic sharing `d0`'s id has that severity (the group's first member is
retained with all fields but the message unchanged). -/
lemma consolidateSpec_severity_exists (ds : List Diagnostic) (d0 : Diagnostic)
    (hd0 : d0 ∈ ds)
    (hfirst : ∀ d ∈ ds, d.id = d0.id → d.severity = d0.severity) :
    ∃ d ∈ consolidateSpec ds, d.severity = d0.severity := by
  have hi : d0.id ∈ firstOccurrenceIds ds :=
    mem_firstOccurrenceIds.mpr ⟨d0, hd0, rfl⟩
  cases hfil : ds.filter (fun d => d.id = d0.id) with
  | nil => exact absurd hfil (filter_id_ne_nil_of_mem_firstOcc hi)
  | cons f r =>
    have hfmem : f ∈ ds.filter (fun d => d.id = d0.id) := by
      rw [hfil]
      exact List.mem_cons_self _ _
    have hfds := (List.mem_filter.mp hfmem).1
    have hfid : f.id = d0.id := by simpa using (List.mem_filter.mp hfmem).2
    have hsev := hfirst f hfds hfid
    cases r with
    | nil =>
      refine ⟨f, ?_, hsev⟩
      unfold consolidateSpec
      exact List.mem_filterMap.mpr ⟨d0.id, hi, by rw [hfil]⟩
    | cons x xs =>
      refine ⟨{ f with
        message := consolidatedMessage f.message (1 + (x :: xs).length) }, ?_, hsev⟩
      unfold consolidateSpec
      exact List.mem_filterMap.mpr ⟨d0.id, hi, by rw [hfil]⟩

/-! ## Claim theorems -/

/-- C1: for every input XML string (and every behavior of the external
parser, `Date`, `URL` and clock collaborators), the `ValidationResult`
returned by `validate` satisfies: `valid` is true iff `errorCount` is 0, and
each count equals the number of diagnostics of that severity in the
returned (consolidated, sorted) sequence. -/
theorem claim_C1_result_invariants (ext : Ext) (parseXml : String → ParseResult)
    (xml : String) :
    ((validateWith ext parseXml xml).valid = true ↔
      (validateWith ext parseXml xml).errorCount = 0) ∧
    (validateWith ext parseXml xml).errorCount =
      ((validateWith ext parseXml xml).diagnostics.filter
        (fun d => d.severity = .error)).length ∧
    (validateWith ext parseXml xml).warningCount =
      ((validateWith ext parseXml xml).diagnostics.filter
        (fun d => d.severity = .warning)).length ∧
    (validateWith ext parseXml xml).infoCount =
      ((validateWith ext parseXml xml).diagnostics.filter
        (fun d => d.severity = .info)).length := by
  refine ⟨?_, rfl, rfl, rfl⟩
  simp only [validateWith]
  exact beq_iff_eq

/-- C8: consolidation groups the raw diagnostics by id (in first-occurrence
order); a singleton group passes through unchanged, and a larger group keeps
only its first member, with its message suffixed by the count of the
additional occurrences — no other field is altered.  `consolidateSpec` is
that contract written out directly; the implementation equals it on every
input. -/
theorem claim_C8_consolidation_contract (ds : List Diagnostic) :
    consolidateDiagnostics ds = consolidateSpec ds :=
  consolidateDiagnostics_eq_spec ds

/-- C9: diagnostic consolidation is idempotent — consolidating an
already-consolidated sequence returns it unchanged (same diagnostics, same
order, same messages). -/
theorem claim_C9_consolidation_idempotent (ds : List Diagnostic) :
    consolidateDiagnostics (consolidateDiagnostics ds) = consolidateDiagnostics ds := by
  have h1 := consolidateDiagnostics_eq_spec (consolidateDiagnostics ds)
  rw [h1, consolidateDiagnostics_eq_spec ds]
  exact consolidateSpec_of_nodup_ids _
    (by rw [consolidateSpec_ids]; exact firstOccurrenceIds_nodup ds)

/-- The acceptance condition of `validateSignature` for Ed25519: the
whitespace-stripped text has the base64-alphabet-then-padding shape, a
length that is a multiple of 4, and a computed decoded byte count of
exactly 64. -/
lemma validateSignature_ed_none_iff (sig : String) :
    validateSignature sig .ed = none ↔
      (base64ShapeTest (stripWhitespace sig) = true ∧
        (stripWhitespace sig).length % 4 = 0 ∧
        decodedByteCount (stripWhitespace sig) = 64) := by
  unfold validateSignature
  by_cases h1 : base64ShapeTest (stripWhitespace sig) = true
  · by_cases h2 : (stripWhitespace sig).length % 4 = 0
    · by_cases h3 : decodedByteCount (stripWhitespace sig) = 64
      · simp [h1, h2, h3]
      · simp [h1, h2, h3]
    · simp [h1, h2]
  · simp [h1]

/-- C3 (amended): `validateSignature` accepts iff, after stripping all
whitespace, the text has the base64-alphabet-then-padding shape, a
length that is a multiple of 4, and a computed decoded byte count of
exactly 64 — but `validateEnclosure` only consults it for a truthy
(non-empty) attribute value.  For a non-empty `sparkle:edSignature` the
enclosure check emits an error-severity E031 exactly when the signature is
invalid — 63- and 65-byte signatures included, regardless of whitespace or
line wrapping; an empty attribute value is instead treated as no signature
at all: no E031, only the informational I010. -/
theorem claim_C3_ed25519_amended (sig : String) (anc : List XmlNode)
    (enc : XmlNode)
    (hed : sparkleAttr enc "edSignature" = some sig)
    (hdsa : sparkleAttr enc "dsaSignature" = none) :
    (validateSignature sig .ed = none ↔
      (base64ShapeTest (stripWhitespace sig) = true ∧
        (stripWhitespace sig).length % 4 = 0 ∧
        decodedByteCount (stripWhitespace sig) = 64)) ∧
    (sig ≠ "" →
      ((∃ d ∈ validateEnclosureEmit anc enc, d.id = "E031") ↔
        validateSignature sig .ed ≠ none)) ∧
    (sig = "" →
      (∀ d ∈ validateEnclosureEmit anc enc, d.id ≠ "E031") ∧
      ∃ d ∈ validateEnclosureEmit anc enc, d.id = "I010") ∧
    (∀ d ∈ validateEnclosureEmit anc enc, d.id = "E031" → d.severity = .error) := by
  refine ⟨validateSignature_ed_none_iff sig, ?_, ?_, ?_⟩
  · intro hsig
    have hie : sig.isEmpty = false := by
      cases hs : sig.isEmpty
      · rfl
      · exact absurd ((String.isEmpty_iff sig).mp hs) hsig
    have htr : jsTruthy (some sig) = true := by
      simp [jsTruthy, hie]
    constructor
    · rintro ⟨d, hd, hid⟩
      by_cases hv : validateSignature sig .ed = none
      · exfalso
        unfold validateEnclosureEmit at hd
        simp only [hed, hdsa, htr, hv] at hd
        simp only [List.mem_append] at hd
        rcases hd with ((((((((hd | hd) | hd) | hd) | hd) | hd) | hd) | hd) | hd) <;>
          first
            | (simp_all; done)
            | (revert hd; split <;> (try split) <;> intro hd <;>
                simp_all [jsOrEmpty, jsTruthy])
      · exact hv
    · intro hne
      cases hval : validateSignature sig .ed with
      | none => exact absurd hval hne
      | some reason =>
        unfold validateEnclosureEmit
        simp only [hed, hdsa, htr, eq_self_iff_true, if_true, jsOrEmpty, hval]
        refine ⟨{ id := "E031", severity := .error,
                  message := "edSignature is invalid: " ++ reason,
                  line := some enc.line, column := some enc.column,
                  path := some (elementPath anc enc),
                  fix := some "Ed25519 signatures must be exactly 64 bytes encoded as base64 (88 characters)" },
                ?_, rfl⟩
        apply List.mem_append.mpr
        left
        apply List.mem_append.mpr
        right
        exact List.mem_singleton_self _
  · rintro rfl
    have htr : jsTruthy (some "") = false := rfl
    constructor
    · intro d hd
      unfold validateEnclosureEmit at hd
      simp only [hed, hdsa, htr, Bool.false_eq_true, if_false] at hd
      simp only [List.mem_append] at hd
      rcases hd with ((((((((hd | hd) | hd) | hd) | hd) | hd) | hd) | hd) | hd) <;>
        first
          | (simp_all; done)
          | (revert hd; split <;> (try split) <;> intro hd <;>
              simp_all [jsOrEmpty, jsTruthy])
    · unfold validateEnclosureEmit
      simp only [hed, hdsa, htr, show jsTruthy none = false from rfl,
        Bool.not_false, Bool.and_self, eq_self_iff_true, if_true]
      exact ⟨_, List.mem_append.mpr (Or.inl (List.mem_append.mpr (Or.inl
        (List.mem_append.mpr (Or.inr (List.mem_singleton_self _)))))), rfl⟩
  · intro d hd hid
    unfold validateEnclosureEmit at hd
    simp only [hed, hdsa] at hd
    simp only [List.mem_append] at hd
    rcases hd with ((((((((hd | hd) | hd) | hd) | hd) | hd) | hd) | hd) | hd) <;>
      first
        | (simp_all; done)
        | (simp_all; obtain ⟨-, rfl⟩ := hd; rfl)
        | (revert hd; split <;> (try split) <;> intro hd <;>
            first
              | (simp_all; done)
              | (simp_all; obtain ⟨-, rfl⟩ := hd; rfl)
              | (rw [List.mem_singleton] at hd; subst hd; rfl))

/-- Counterexample to C3 as stated: `sparkle:edSignature=""` decodes to 0
bytes — not 64 — yet the program emits no E031 for it (the `if (edSig)`
truthiness guard skips validation), treating the enclosure as unsigned
(I010). -/
theorem claim_C3_counterexample :
    validateSignature "" .ed ≠ none ∧
    (∀ d ∈ validateEnclosureEmit [] encC3, d.id ≠ "E031") ∧
    (∃ d ∈ validateEnclosureEmit [] encC3, d.id = "I010") :=
  ⟨by decide, by decide, by decide⟩

/-- Witness for C3 (amended) at a concrete 63-decoded-byte line-wrapped
signature: the E031 error is emitted. -/
theorem claim_C3_amended_witness :
    sigW ≠ "" ∧
    (∃ d ∈ validateEnclosureEmit [] encW, d.id = "E031") ∧
    validateSignature sigW .ed ≠ none := by
  have hinv : validateSignature sigW .ed ≠ none := by decide
  have h := claim_C3_ed25519_amended sigW [] encW (by decide) (by decide)
  exact ⟨by decide, (h.2.1 (by decide)).mpr hinv, hinv⟩

/-- The chain `if c then true else t` read as a disjunction. -/
lemma ite_true_or (c : Prop) [Decidable c] (t : Bool) :
    ((if c then true else t) = true) ↔ (c ∨ t = true) := by
  split <;> simp_all

/-- The IPv4 branch of `isPrivateIP` agrees with claim C6's CIDR ranges. -/
lemma ipv4PrivateRanges_eq_claimed (a b c d : Nat) :
    ipv4PrivateRanges (a, b, c, d) = claimedPrivateV4 a b c d := by
  unfold ipv4PrivateRanges claimedPrivateV4
  by_cases hb : (a > 255 || b > 255 || c > 255 || d > 255) = true
  · simp [hb]
  · simp only [hb, Bool.false_eq_true, if_false]
    simp only [Bool.or_eq_true, decide_eq_true_eq, not_or, Nat.not_lt] at hb
    obtain ⟨⟨⟨ha2, hb2⟩, hc2⟩, hd2⟩ := hb
    rw [Bool.eq_iff_iff]
    have p8 : (2:Nat) ^ (32 - 8) = 16777216 := by norm_num
    have p10 : (2:Nat) ^ (32 - 10) = 4194304 := by norm_num
    have p16 : (2:Nat) ^ (32 - 16) = 65536 := by norm_num
    have p12 : (2:Nat) ^ (32 - 12) = 1048576 := by norm_num
    have p24 : (2:Nat) ^ (32 - 24) = 256 := by norm_num
    have p15 : (2:Nat) ^ (32 - 15) = 131072 := by norm_num
    have p4 : (2:Nat) ^ (32 - 4) = 268435456 := by norm_num
    simp only [ite_true_or, Bool.or_eq_true, Bool.and_eq_true, decide_eq_true_eq,
      inCidr, ipv4Value, Bool.false_eq_true, or_false, p8, p10, p16, p12, p24,
      p15, p4]
    refine or_congr ?_ (or_congr ?_ (or_congr ?_ (or_congr ?_ (or_congr ?_
      (or_congr ?_ (or_congr ?_ (or_congr ?_ (or_congr ?_ (or_congr ?_
      (or_congr ?_ (or_congr ?_ (or_congr ?_ ?_)))))))))))) <;> omega

/-- C6 (amended): the IPv4 side of the claim holds as stated — a dotted-quad
string is classified private exactly when its numeric value falls in the
claimed CIDR ranges (or an octet exceeds 255) — but the IPv6 side must be
weakened to the textual tests the code performs: exact text `::1`, lowercased
prefix `fe80:` (a strict subset of `fe80::/10`), lowercased prefix `fc`/`fd`,
and recursion on the tail of a `::ffff:` prefix. -/
theorem claim_C6_ip_classification_amended (s : String) :
    (∀ q, ipv4Quad s = some q →
      isPrivateIP s = claimedPrivateV4 q.1 q.2.1 q.2.2.1 q.2.2.2) ∧
    (ipv4Quad s = none →
      isPrivateIP s =
        (decide (s.data.map Char.toLower = "::1".data) ||
         "fe80:".data.isPrefixOf (s.data.map Char.toLower) ||
         ("fc".data.isPrefixOf (s.data.map Char.toLower) ||
          "fd".data.isPrefixOf (s.data.map Char.toLower)) ||
         ("::ffff:".data.isPrefixOf (s.data.map Char.toLower) &&
          isPrivateIP (String.mk ((s.data.map Char.toLower).drop 7))))) := by
  constructor
  · intro q hq
    show isPrivateIPGo (s.length + 1) s.data = _
    unfold isPrivateIPGo
    rw [show String.mk s.data = s from rfl, hq]
    exact ipv4PrivateRanges_eq_claimed q.1 q.2.1 q.2.2.1 q.2.2.2
  · intro hq
    show isPrivateIPGo (s.length + 1) s.data = _
    unfold isPrivateIPGo
    rw [show String.mk s.data = s from rfl, hq]
    simp only
    by_cases h1 : s.data.map Char.toLower = "::1".data
    · simp [h1]
    · simp only [h1, if_false, decide_eq_false h1, Bool.false_or]
      by_cases h2 : ("fe80:".data.isPrefixOf (s.data.map Char.toLower)) = true
      · simp [h2]
      · rw [Bool.not_eq_true] at h2
        simp only [h2, Bool.false_eq_true, if_false, Bool.false_or]
        by_cases h3 : ("fc".data.isPrefixOf (s.data.map Char.toLower) ||
            "fd".data.isPrefixOf (s.data.map Char.toLower)) = true
        · simp [h3]
        · rw [Bool.not_eq_true] at h3
          simp only [h3, Bool.false_eq_true, if_false, Bool.false_or]
          by_cases h4 : ("::ffff:".data.isPrefixOf (s.data.map Char.toLower)) = true
          · simp only [h4, if_pos, Bool.true_and]
            have hlen : 7 ≤ (s.data.map Char.toLower).length := by
              have := (List.isPrefixOf_iff_prefix.mp h4).length_le
              simpa using this
            rw [List.length_map] at hlen
            show isPrivateIPGo s.length _ = isPrivateIPGo (String.length _ + 1) _
            have hd : ((s.data.map Char.toLower).drop 7).length = s.data.length - 7 := by
              rw [List.length_drop, List.length_map]
            have hsl : s.length = s.data.length := rfl
            apply isPrivateIPGo_fuel_irrelevant
            · omega
            · show _ < (String.mk ((s.data.map Char.toLower).drop 7)).length + 1
              have : (String.mk ((s.data.map Char.toLower).drop 7)).length =
                  ((s.data.map Char.toLower).drop 7).length := rfl
              omega
          · rw [Bool.not_eq_true] at h4
            simp [h4]

/-- Counterexample to C6 as stated: `fe81::1` lies in `fe80::/10` (its first
16-bit group shifted right by 6 is `0x3FA`), so the claim classifies it
private, but `isPrivateIP` returns false — the code only tests the textual
prefix `fe80:`. -/
theorem claim_C6_counterexample :
    inFe80Slash10 "fe81::1" = true ∧ isPrivateIP "fe81::1" = false := by
  constructor
  · decide
  · decide

/-- Witness for C6 (amended) at a concrete carrier-grade-NAT address. -/
theorem claim_C6_amended_witness :
    isPrivateIP "100.100.0.1" = claimedPrivateV4 100 100 0 1 ∧
    claimedPrivateV4 100 100 0 1 = true := by
  constructor
  · exact (claim_C6_ip_classification_amended "100.100.0.1").1
      (100, 100, 0, 1) (by decide)
  · decide

/-- C10: the fetch proxy's private-address classifier returns public
(`false`) for every host string that is neither a dotted-quad IPv4 address
nor one of the recognized textual IPv6 forms — even though `onRequestGet`
treats any digits-and-dots hostname as an IP literal and relies on this
classifier alone to block it. -/
theorem claim_C10_unrecognized_hosts_public (s : String)
    (hq : ipv4Quad s = none)
    (h1 : ¬(s.data.map Char.toLower = "::1".data))
    (h2 : "fe80:".data.isPrefixOf (s.data.map Char.toLower) = false)
    (h3 : "fc".data.isPrefixOf (s.data.map Char.toLower) = false)
    (h4 : "fd".data.isPrefixOf (s.data.map Char.toLower) = false)
    (h5 : "::ffff:".data.isPrefixOf (s.data.map Char.toLower) = false) :
    isPrivateIP s = false := by
  show isPrivateIPGo (s.length + 1) s.data = false
  unfold isPrivateIPGo
  rw [show String.mk s.data = s from rfl, hq]
  simp [h1, h2, h3, h4, h5]

/-- Witness for C10 at the pure-decimal IPv4 encoding `"2130706433"`
(127.0.0.1): the proxy's literal branch treats it as an IP literal, yet the
classifier calls it public. -/
theorem claim_C10_witness :
    hostTreatedAsIpLiteral "2130706433" = true ∧
    isPrivateIP "2130706433" = false := by
  refine ⟨by decide, claim_C10_unrecognized_hosts_public "2130706433"
    (by decide) (by decide) (by decide) (by decide) (by decide) (by decide)⟩

/-- C7 (amended): when the Remote Verifier's guard classifies a URL as
local/private — which it decides purely textually (localhost names,
`127.`-prefixed, `::1`, and RFC 1918 / link-local dotted quads), never by
resolving hostnames — `checkUrl` performs no network call, marks the result
skipped, and the diagnostic loop emits exactly one W023 warning and no
E027/E028/W022 for that URL; every other URL is probed. -/
theorem claim_C7_skip_behavior_amended (ext : Ext) (url : String)
    (fetcher : String → FetchOut) (enc : EnclosureRef) :
    (isLocalOrPrivateUrl ext url = true →
      (checkUrl ext url fetcher).2 = false ∧
      (checkUrl ext url fetcher).1.skipped = true ∧
      ((resultDiagnostics enc (checkUrl ext url fetcher).1).map
        (fun d => (d.id, d.severity))) = [("W023", Severity.warning)] ∧
      (∀ d ∈ resultDiagnostics enc (checkUrl ext url fetcher).1,
        d.id ≠ "E027" ∧ d.id ≠ "E028" ∧ d.id ≠ "W022")) ∧
    (isLocalOrPrivateUrl ext url = false →
      (checkUrl ext url fetcher).2 = true) := by
  constructor
  · intro h
    unfold checkUrl
    rw [if_pos h]
    refine ⟨rfl, rfl, rfl, ?_⟩
    intro d hd
    simp only [resultDiagnostics] at hd
    simp at hd
    subst hd
    refine ⟨by simp, by simp, by simp⟩
  · intro h
    unfold checkUrl
    rw [if_neg (by simp [h])]
    cases fetcher url <;> rfl

/-- Counterexample to C7 as stated: `http://[fe80::1]/app.zip` has an IPv6
link-local IP-literal host (in `fe80::/10`), yet the guard does not skip it
— `checkUrl` performs the network probe. -/
theorem claim_C7_counterexample :
    ((extC7.urlParse urlC7).map (fun u => u.hostname)) = some "[fe80::1]" ∧
    inFe80Slash10 (stripBrackets "[fe80::1]") = true ∧
    isLocalOrPrivateUrl extC7 urlC7 = false ∧
    (checkUrl extC7 urlC7 fetchC7).2 = true ∧
    (checkUrl extC7 urlC7 fetchC7).1.skipped = false := by
  refine ⟨by decide, by decide, by decide, ?_, ?_⟩
  · unfold checkUrl
    rw [if_neg (by decide)]
    rfl
  · unfold checkUrl
    rw [if_neg (by decide)]
    rfl

/-- Witness for C7 (amended) at a concrete RFC 1918 URL. -/
theorem claim_C7_amended_witness :
    isLocalOrPrivateUrl extPriv urlPriv = true ∧
    (checkUrl extPriv urlPriv fetchC7).2 = false ∧
    ((resultDiagnostics encPriv (checkUrl extPriv urlPriv fetchC7).1).map
      (fun d => (d.id, d.severity))) = [("W023", Severity.warning)] := by
  have h := (claim_C7_skip_behavior_amended extPriv urlPriv fetchC7 encPriv).1
    (by decide)
  exact ⟨by decide, h.1, h.2.2.1⟩

/-- C4: an item whose `sparkle:version` element text is empty or
whitespace-only, or whose enclosure's `sparkle:version` attribute is
whitespace-only, receives an error-severity E029 diagnostic from the version
rules' item scan — unconditionally, so in particular even when a usable
fallback version exists elsewhere — and when a usable enclosure-attribute
fallback does exist, the missing-version error E008 is not emitted at all,
showing E029 is a distinct diagnostic from E008. -/
theorem claim_C4_empty_version_E029 (ext : Ext) (root channel item : XmlNode) :
    (∀ vEl, sparkleChildElement item "version" = some vEl →
      jsTrim (textContent vEl) = "" →
      ∃ d ∈ (versionItemScan ext root channel item).diags,
        d.id = "E029" ∧ d.severity = Severity.error) ∧
    (∀ enc v, childElement item "enclosure" = some enc →
      enclosureVersionAttr item = some v → jsTrim v = "" →
      ∃ d ∈ (versionItemScan ext root channel item).diags,
        d.id = "E029" ∧ d.severity = Severity.error) ∧
    (∀ vEl, sparkleChildElement item "version" = some vEl →
      jsTrim (textContent vEl) = "" →
      jsTruthy (enclosureVersionAttr item) = true →
      ∀ d ∈ (versionItemScan ext root channel item).diags, d.id ≠ "E008") := by
  refine ⟨?_, ?_, ?_⟩
  · intro vEl hvEl htrim
    simp only [versionItemScan, hvEl, htrim, decide_True, Bool.or_true,
      eq_self_iff_true, if_true]
    split
    · exact ⟨_, List.mem_append_left _ (List.mem_append_left _
        (List.mem_cons_self _ _)), rfl, rfl⟩
    · exact ⟨_, List.mem_append_left _ (List.mem_append_left _
        (List.mem_append_left _ (List.mem_append_left _ (List.mem_append_left _
        (List.mem_cons_self _ _))))), rfl, rfl⟩
  · intro enc v henc hv htrim
    simp only [versionItemScan, henc, hv, htrim, decide_True, Bool.or_true,
      eq_self_iff_true, if_true]
    split
    · exact ⟨_, List.mem_append_left _ (List.mem_append_right _
        (List.mem_cons_self _ _)), rfl, rfl⟩
    · exact ⟨_, List.mem_append_left _ (List.mem_append_left _
        (List.mem_append_left _ (List.mem_append_left _ (List.mem_append_right _
        (List.mem_cons_self _ _))))), rfl, rfl⟩
  · intro vEl hvEl htrim htruthy
    have hvelt : versionElText item = some (jsTrim (textContent vEl)) := by
      unfold versionElText
      rw [hvEl]
      rfl
    have hexp : explicitVersion item = enclosureVersionAttr item := by
      unfold explicitVersion jsOr
      rw [hvelt, htrim]
      simp only [show jsTruthy (some "") = false from rfl, Bool.false_eq_true,
        if_false]
    have hexpT : jsTruthy (explicitVersion item) = true := by
      rw [hexp]; exact htruthy
    simp only [versionItemScan, hvEl, htrim, decide_True, Bool.or_true,
      eq_self_iff_true, if_true]
    rw [if_neg (by simp [hexpT])]
    intro d hd
    simp only [List.mem_append] at hd
    rcases hd with ((((h | h) | h) | h) | h) | h
    · rcases List.mem_singleton.mp h with rfl
      simp
    · revert h
      split <;> (try split) <;> (try split) <;>
        first
        | (simp; done)
        | (intro h2; simp only [List.mem_singleton] at h2; subst h2; simp)
    · revert h
      split <;> (try split) <;> (try split) <;>
        first
        | (simp; done)
        | (intro h2; simp only [List.mem_singleton] at h2; subst h2; simp)
    · revert h
      split <;> (try split) <;> (try split) <;>
        first
        | (simp; done)
        | (intro h2; simp only [List.mem_singleton] at h2; subst h2; simp)
    · revert h
      split <;> (try split) <;> (try split) <;>
        first
        | (simp; done)
        | (intro h2; simp only [List.mem_singleton] at h2; subst h2; simp)
    · revert h
      split <;> (try split) <;> (try split) <;>
        first
        | (simp; done)
        | (intro h2; simp only [List.mem_singleton] at h2; subst h2; simp)

/-- Witness for C4: a whitespace-only version element next to a usable
enclosure-attribute version yields E029 and no E008. -/
theorem claim_C4_witness :
    jsTrim (textContent vElC4) = "" ∧
    jsTruthy (enclosureVersionAttr itemC4) = true ∧
    (∃ d ∈ (versionItemScan extTrivial rootW rootW itemC4).diags,
      d.id = "E029" ∧ d.severity = Severity.error) ∧
    (∀ d ∈ (versionItemScan extTrivial rootW rootW itemC4).diags,
      d.id ≠ "E008") :=
  ⟨by decide, by decide,
   (claim_C4_empty_version_E029 extTrivial rootW rootW itemC4).1 vElC4
     rfl (by decide),
   (claim_C4_empty_version_E029 extTrivial rootW rootW itemC4).2.2 vElC4
     rfl (by decide) (by decide)⟩

/-- C5: for an enclosure URL following the `name_value.ext` underscore
convention — decomposed as `pre ++ "_" ++ seg` with `seg` underscore-free
(so the `"_"` shown is the last underscore) and `seg = ver ++ "." ++ extn`
with `extn` dot-free (so the `"."` shown is the last dot) — the deduced
version equals `ver`, the text between the last underscore and the last dot,
and the deduction succeeds exactly when that text contains a digit; an item
with no explicit version but a deducible one gets a warning-severity W041
(not an error); and an explicit version always takes precedence: the
effective version is then the explicit one. -/
theorem claim_C5_filename_version (ext : Ext) (root channel item : XmlNode)
    (url : String) (pre seg ver extn : List Char)
    (hurl : url.data = pre ++ '_' :: seg)
    (hseg : seg.contains '_' = false)
    (hver : seg = ver ++ '.' :: extn)
    (hext : extn.contains '.' = false) :
    extractVersionFromUrl url =
      (if ver.any isDigitChar then some (String.mk ver) else none) ∧
    (jsTruthy (explicitVersion item) = false →
      jsTruthy (filenameVersion item) = true →
      ∃ d ∈ (versionItemScan ext root channel item).diags,
        d.id = "W041" ∧ d.severity = Severity.warning) ∧
    (jsTruthy (explicitVersion item) = true →
      effectiveVersion item = jsOrEmpty (explicitVersion item)) := by
  refine ⟨?_, ?_, ?_⟩
  · unfold extractVersionFromUrl
    rw [hurl, splitCharList_append_cons, splitCharList_not_contains _ _ hseg]
    have hne := splitCharList_ne_nil '_' pre
    have hlen : 1 ≤ (splitCharList '_' pre).length := List.length_pos.mpr hne
    rw [if_neg (by simp only [List.length_append, List.length_cons,
      List.length_nil, Nat.not_lt]; omega)]
    rw [List.getLast?_concat]
    simp only [hver, lastIdxList_boundary _ _ hext, List.take_left]
    by_cases hd : ver.any isDigitChar = true
    · rw [if_pos hd]
      rw [if_neg (by
        simp only [Bool.or_eq_true, Bool.not_eq_true', List.isEmpty_iff]
        push_neg
        constructor
        · intro hnil
          rw [hnil] at hd
          simp at hd
        · simp [hd])]
    · rw [if_neg hd, if_pos (by
        simp only [Bool.or_eq_true, Bool.not_eq_true']
        right
        simpa using hd)]
  · intro hexp hfv
    simp only [versionItemScan, hexp, hfv, Bool.not_false, Bool.not_true,
      Bool.and_false, Bool.false_eq_true, if_false, eq_self_iff_true, if_true]
    exact ⟨_, List.mem_append_left _ (List.mem_append_left _
      (List.mem_append_left _ (List.mem_append_right _
        (List.mem_cons_self _ _)))), rfl, rfl⟩
  · intro hexp
    unfold effectiveVersion jsOr
    rw [if_pos hexp]

/-- Witness for C5 at `MyApp_1.5.zip` with an item carrying only that URL. -/
theorem claim_C5_witness :
    extractVersionFromUrl "https://example.com/MyApp_1.5.zip" =
      (if ("1.5".data.any isDigitChar) then some (String.mk "1.5".data)
       else none) ∧
    (∃ d ∈ (versionItemScan extTrivial rootW rootW itemC5).diags,
      d.id = "W041" ∧ d.severity = Severity.warning) := by
  have h := claim_C5_filename_version extTrivial rootW rootW itemC5
    "https://example.com/MyApp_1.5.zip"
    "https://example.com/MyApp".data "1.5.zip".data "1.5".data "zip".data
    (by decide) (by decide) (by decide) (by decide)
  exact ⟨h.1, h.2.1 (by decide) (by decide)⟩

/-- C2 (amended): the structural-gate claim holds for the rule modules but
not for `xmlFormatRules`.  When the root is missing and parsing produced an
error, the result is exactly the parse diagnostics (consolidated and
sorted), and it is invalid when those are errors.  When the root exists but
is not `rss`, no rule module beyond `structureRules` contributes — but
`xmlFormatRules` still runs, so the result is exactly the parse diagnostics
plus the single structural E002 plus whatever W039/W038 the raw text
triggers; the result is invalid whenever the parser did not itself use the
id E002. -/
theorem claim_C2_structural_gate_amended (ext : Ext)
    (parseXml : String → ParseResult) (xml : String) :
    ((parseXml xml).document.root = none →
      ((parseXml xml).diagnostics.any
        (fun d => d.severity = Severity.error)) = true →
      (validateWith ext parseXml xml).diagnostics =
        sortDiagnostics (consolidateDiagnostics (parseXml xml).diagnostics) ∧
      ((∀ d ∈ (parseXml xml).diagnostics, d.severity = Severity.error) →
        (validateWith ext parseXml xml).valid = false)) ∧
    (∀ r, (parseXml xml).document.root = some r → r.name ≠ "rss" →
      (validateWith ext parseXml xml).diagnostics =
        sortDiagnostics (consolidateDiagnostics
          ((parseXml xml).diagnostics ++
            structureRulesEmit (parseXml xml).document ++
            xmlFormatRulesEmit (parseXml xml).document xml)) ∧
      (∀ d ∈ structureRulesEmit (parseXml xml).document,
        d.id = "E002" ∧ d.severity = Severity.error) ∧
      structureRulesEmit (parseXml xml).document ≠ [] ∧
      (∀ d ∈ xmlFormatRulesEmit (parseXml xml).document xml,
        d.id = "W039" ∨ d.id = "W038") ∧
      ((∀ d ∈ (parseXml xml).diagnostics, d.id ≠ "E002") →
        (validateWith ext parseXml xml).valid = false)) := by
  constructor
  · intro hroot hany
    constructor
    · simp only [validateWith, hroot, hany, Option.isNone_none, Bool.and_true,
        Bool.not_true, Bool.false_eq_true, if_false]
    · intro hall
      rcases List.any_eq_true.mp hany with ⟨d0, hd0, hsev⟩
      have hsev0 : d0.severity = Severity.error := by simpa using hsev
      rcases consolidateSpec_severity_exists (parseXml xml).diagnostics d0 hd0
          (fun d hd _ => by rw [hall d hd, hsev0]) with ⟨d, hd, hds⟩
      simp only [validateWith, hroot, hany, Option.isNone_none, Bool.and_true,
        Bool.not_true, Bool.false_eq_true, if_false]
      rw [beq_eq_false_iff_ne]
      intro hzero
      have hmem : d ∈ sortDiagnostics
          (consolidateDiagnostics (parseXml xml).diagnostics) :=
        ((sortDiagnostics_perm _).mem_iff).mpr
          (consolidateDiagnostics_eq_spec _ ▸ hd)
      have hfilmem : d ∈ (sortDiagnostics
          (consolidateDiagnostics (parseXml xml).diagnostics)).filter
          (fun x => x.severity = Severity.error) :=
        List.mem_filter.mpr ⟨hmem, by simp [hds, hsev0]⟩
      rw [List.length_eq_zero] at hzero
      rw [hzero] at hfilmem
      exact absurd hfilmem (List.not_mem_nil d)
  · intro r hroot hn
    have hfat : (((parseXml xml).diagnostics.any
        (fun d => d.severity = Severity.error)) &&
        (parseXml xml).document.root.isNone) = false := by
      rw [hroot]
      simp
    have hrun := runRules_nonrss ext (parseXml xml).document
      (parseXml xml).diagnostics r hroot hn
    have hstr := structureRulesEmit_nonrss (parseXml xml).document r hroot hn
    refine ⟨?_, ?_, ?_, xmlFormatRulesEmit_ids _ _, ?_⟩
    · simp only [validateWith, hfat, Bool.not_false, eq_self_iff_true, if_true,
        xmlFormatRules, hrun]
    · rw [hstr]
      intro d hd
      rcases List.mem_singleton.mp hd with rfl
      exact ⟨rfl, rfl⟩
    · rw [hstr]
      simp
    · intro hnoE002
      obtain ⟨e2, hstr2, he2id, he2sev⟩ :
          ∃ e, structureRulesEmit (parseXml xml).document = [e] ∧
            e.id = "E002" ∧ e.severity = Severity.error := ⟨_, hstr, rfl, rfl⟩
      have hd0 : e2 ∈ (parseXml xml).diagnostics ++
          structureRulesEmit (parseXml xml).document ++
          xmlFormatRulesEmit (parseXml xml).document xml := by
        rw [hstr2]
        exact List.mem_append_left _ (List.mem_append_right _
          (List.mem_cons_self _ _))
      have hfirst : ∀ d ∈ (parseXml xml).diagnostics ++
          structureRulesEmit (parseXml xml).document ++
          xmlFormatRulesEmit (parseXml xml).document xml,
          d.id = e2.id → d.severity = e2.severity := by
        intro d hd hid
        rw [he2id] at hid
        simp only [List.mem_append] at hd
        rcases hd with (hd | hd) | hd
        · exact absurd hid (hnoE002 d hd)
        · rw [hstr2] at hd
          rcases List.mem_singleton.mp hd with rfl
          rfl
        · rcases xmlFormatRulesEmit_ids _ _ d hd with h | h <;>
            rw [h] at hid <;> exact absurd hid (by decide)
      rcases consolidateSpec_severity_exists _ e2 hd0 hfirst with ⟨d, hd, hds⟩
      simp only [validateWith, hfat, Bool.not_false, eq_self_iff_true, if_true,
        xmlFormatRules, hrun]
      rw [beq_eq_false_iff_ne]
      intro hzero
      have hmem : d ∈ sortDiagnostics (consolidateDiagnostics
          ((parseXml xml).diagnostics ++
            structureRulesEmit (parseXml xml).document ++
            xmlFormatRulesEmit (parseXml xml).document xml)) :=
        ((sortDiagnostics_perm _).mem_iff).mpr
          (consolidateDiagnostics_eq_spec _ ▸ hd)
      have hfilmem : d ∈ (sortDiagnostics (consolidateDiagnostics
          ((parseXml xml).diagnostics ++
            structureRulesEmit (parseXml xml).document ++
            xmlFormatRulesEmit (parseXml xml).document xml))).filter
          (fun x => x.severity = Severity.error) :=
        List.mem_filter.mpr ⟨hmem, by simp [hds, he2sev]⟩
      rw [List.length_eq_zero] at hzero
      rw [hzero] at hfilmem
      exact absurd hfilmem (List.not_mem_nil d)

/-- Counterexample to C2 as stated: a well-formed document with root `<foo>`
(not `rss`) yields, besides the structural E002, a W039 diagnostic from the
downstream `xmlFormatRules` module — the result is not "exactly the
structural diagnostic(s)". -/
theorem claim_C2_counterexample :
    ((parseC2 xmlC2).document.root.map (fun r => r.name)) = some "foo" ∧
    (validateWith extTrivial parseC2 xmlC2).valid = false ∧
    ∃ d ∈ (validateWith extTrivial parseC2 xmlC2).diagnostics,
      d.id = "W039" := by
  refine ⟨rfl, ?_, ?_⟩ <;> decide

/-- Witness for C2 (amended) at the concrete `<foo>` document. -/
theorem claim_C2_amended_witness :
    (validateWith extTrivial parseC2 xmlC2).diagnostics =
      sortDiagnostics (consolidateDiagnostics
        ([] ++ structureRulesEmit docC2 ++ xmlFormatRulesEmit docC2 xmlC2)) ∧
    (validateWith extTrivial parseC2 xmlC2).valid = false := by
  have h := (claim_C2_structural_gate_amended extTrivial parseC2 xmlC2).2
    rootC2 rfl (by decide)
  exact ⟨h.1, h.2.2.2.2 (by decide)⟩

end Sparkle
